import Mathlib

/-!
# Schema version resolution and upgrade (`pkg/skaffold/schema/versions.go`)

A shallow embedding of the registry of schema versions, of `ParseConfig`,
`CheckVersionIsLatest` and `UpgradeToLatest`, and the properties of these
operations.

Conventions of the embedding

* A Go `error` value is a `GoError`; a Go result `(T, error)` of the functions
  under study is a pair `Option T × Option GoError` (`none` is `nil`).
* Packages that `versions.go` imports (the document reader, the YAML decoder,
  the version modules, the tag validator, the version comparator) are fields of
  a record of collaborators.
* Every call of a collaborator is recorded in a list of `Call`s, in program
  order, so that "is called" and "is not called" are statements about a value.
* The `for` loop of `UpgradeToLatest` is unrolled under a fuel counter: one
  unit of fuel per evaluation of the loop condition; `none` is "still running".
-/

set_option autoImplicit false

namespace Schema

/-! ## Errors (`github.com/pkg/errors`) -/

/-- An error value: created by `errors.New` / `errors.Errorf`, or an error
wrapped with a context message by `errors.Wrap` / `errors.Wrapf`. -/
inductive GoError where
  | new (msg : String)
  | wrap (cause : GoError) (msg : String)
  deriving DecidableEq, Repr

namespace GoError

/-- The text of an error, `err.Error()`: a wrapped error prints its message, a
colon, and the text of what it wraps. -/
def Error : GoError → String
  | new msg => msg
  | wrap cause msg => msg ++ ": " ++ cause.Error

/-- The innermost error, `errors.Cause(err)`. -/
def Cause : GoError → GoError
  | new msg => new msg
  | wrap cause _ => cause.Cause

end GoError

/-- Raw document bytes, `[]byte`. -/
abbrev Bytes := List UInt8

/-! ## The registry -/

/-- The probe target: `type APIVersion struct { Version string }`. -/
structure APIVersion where
  Version : String
  deriving DecidableEq, Repr

/-- One registry entry: `type version struct { apiVersion string; factory func() util.VersionedConfig }`. -/
structure version (Cfg : Type) where
  apiVersion : String
  factory : Unit → Cfg

/-- The registry type: `type versions []version`. -/
abbrev versions (Cfg : Type) := List (version Cfg)

/-- The lookup `func (v *versions) Find(apiVersion string)`: scan the entries in
order, return the factory of the first entry with that tag and `true`, or
`(nil, false)` after the last entry. -/
def versions.Find {Cfg : Type} : versions Cfg → String → Option (Unit → Cfg) × Bool
  | [], _ => (none, false)
  | v :: rest, apiVersion =>
    if v.apiVersion == apiVersion then (some v.factory, true)
    else versions.Find rest apiVersion

/-! ## Collaborators -/

/-- What `versions.go` uses of one version module (`v1alpha1`, ..., `latest`):
its constant `Version` and its constructor `NewSkaffoldPipeline`. -/
structure VersionModule (Cfg : Type) where
  Version : String
  NewSkaffoldPipeline : Unit → Cfg

/-- The packages `versions.go` calls into. `Cfg` is the type of the values of
the interface `util.VersionedConfig`; its three methods are `GetVersion`,
`Parse` (which writes into the receiver: the receiver after the call is part of
the result) and `Upgrade`.

* `ReadConfiguration` is `misc.ReadConfiguration`;
* `Unmarshal buf out` is `yaml.Unmarshal(buf, out)` for `out *APIVersion`: it
  gives the struct after the call and the error;
* `ProcessStruct` is `yamltags.ProcessStruct`. -/
structure Collaborators (Cfg : Type) where
  ReadConfiguration : String → Except GoError Bytes
  Unmarshal : Bytes → APIVersion → APIVersion × Option GoError
  v1alpha1 : VersionModule Cfg
  v1alpha2 : VersionModule Cfg
  v1alpha3 : VersionModule Cfg
  v1alpha4 : VersionModule Cfg
  latest : VersionModule Cfg
  GetVersion : Cfg → String
  Parse : Cfg → Bytes → Bool → Cfg × Option GoError
  Upgrade : Cfg → Except GoError Cfg
  ProcessStruct : Cfg → Option GoError

/-- The version comparator, package `apiversion`: `Parse` turns a tag into an
ordered version; `LT` and `GT` of the source are `<` and `>` of the order. -/
structure Comparator (V : Type) where
  Parse : String → Except GoError V

/-- A call of a collaborator (or of the registry lookup), with its arguments;
`factory cfg` is a call of the factory found in the registry, which made `cfg`. -/
inductive Call (Cfg : Type) where
  | ReadConfiguration (filename : String)
  | Unmarshal (buf : Bytes)
  | Find (apiVersion : String)
  | factory (cfg : Cfg)
  | Parse (cfg : Cfg) (buf : Bytes) (applyDefaults : Bool)
  | ProcessStruct (cfg : Cfg)
  | Upgrade (vc : Cfg)
  deriving DecidableEq, Repr

/-- How a call ends when the callee may panic. -/
inductive Outcome (α : Type) where
  | returned (a : α)
  | panicked (e : GoError)
  deriving DecidableEq, Repr

/-- The table `var schemaVersions = versions{...}`: five entries, oldest first. -/
def schemaVersions {Cfg : Type} (env : Collaborators Cfg) : versions Cfg :=
  [ ⟨env.v1alpha1.Version, env.v1alpha1.NewSkaffoldPipeline⟩,
    ⟨env.v1alpha2.Version, env.v1alpha2.NewSkaffoldPipeline⟩,
    ⟨env.v1alpha3.Version, env.v1alpha3.NewSkaffoldPipeline⟩,
    ⟨env.v1alpha4.Version, env.v1alpha4.NewSkaffoldPipeline⟩,
    ⟨env.latest.Version, env.latest.NewSkaffoldPipeline⟩ ]

/-! ## The engine -/

/-- The function `ParseConfig(filename, applyDefaults)`: read, probe the
`apiVersion`, look the tag up, make the object and let it parse the same bytes,
validate the tags. The first component lists the calls made. A `nil` factory
with `present = true` (which `Find` never gives) would be a call of a `nil`
function value: a panic. -/
def ParseConfig {Cfg : Type} (env : Collaborators Cfg) (filename : String)
    (applyDefaults : Bool) :
    List (Call Cfg) × Outcome (Option Cfg × Option GoError) :=
  match env.ReadConfiguration filename with
  | .error err =>
    ([.ReadConfiguration filename],
      .returned (none, some (.wrap err "read skaffold config")))
  | .ok buf =>
    match env.Unmarshal buf { Version := "" } with
    | (_, some err) =>
      ([.ReadConfiguration filename, .Unmarshal buf],
        .returned (none, some (.wrap err "parsing api version")))
    | (apiVersion, none) =>
      match (schemaVersions env).Find apiVersion.Version with
      | (_, false) =>
        ([.ReadConfiguration filename, .Unmarshal buf, .Find apiVersion.Version],
          .returned (none,
            some (.new ("unknown api version: \x27" ++ apiVersion.Version ++ "\x27"))))
      | (none, true) =>
        ([.ReadConfiguration filename, .Unmarshal buf, .Find apiVersion.Version],
          .panicked (.new "runtime error: invalid memory address or nil pointer dereference"))
      | (some factory, true) =>
        let cfg := factory ()
        match env.Parse cfg buf applyDefaults with
        | (_, some err) =>
          ([.ReadConfiguration filename, .Unmarshal buf, .Find apiVersion.Version,
            .factory cfg, .Parse cfg buf applyDefaults],
            .returned (none, some (.wrap err "unable to parse config")))
        | (cfg1, none) =>
          match env.ProcessStruct cfg1 with
          | some err =>
            ([.ReadConfiguration filename, .Unmarshal buf, .Find apiVersion.Version,
              .factory cfg, .Parse cfg buf applyDefaults, .ProcessStruct cfg1],
              .returned (none, some (.wrap err "invalid config")))
          | none =>
            ([.ReadConfiguration filename, .Unmarshal buf, .Find apiVersion.Version,
              .factory cfg, .Parse cfg buf applyDefaults, .ProcessStruct cfg1],
              .returned (some cfg1, none))

/-- Modelled from the spec: `apiversion.MustParse` (package `apiversion` is not
in the source tree) parses a tag the same way as `apiversion.Parse`; a tag that
does not parse is a defect, so the call panics. -/
def MustParse {V : Type} (apiversion : Comparator V) (v : String) : Outcome V :=
  match apiversion.Parse v with
  | .ok res => .returned res
  | .error err => .panicked err

/-- The function `CheckVersionIsLatest(apiVersion)`. The latest tag is parsed
by `MustParse` at each of the two comparisons, after the argument has parsed. -/
def CheckVersionIsLatest {Cfg V : Type} [LinearOrder V] (env : Collaborators Cfg)
    (apiversion : Comparator V) (apiVersion : String) : Outcome (Option GoError) :=
  match apiversion.Parse apiVersion with
  | .error err => .returned (some (.wrap err "parsing api version"))
  | .ok parsedVersion =>
    match MustParse apiversion env.latest.Version with
    | .panicked e => .panicked e
    | .returned l =>
      if parsedVersion < l then
        .returned (some (.new "config version out of date: run `skaffold fix`"))
      else
        match MustParse apiversion env.latest.Version with
        | .panicked e => .panicked e
        | .returned l =>
          if parsedVersion > l then
            .returned (some (.new
              "config version is too new for this version of skaffold: upgrade skaffold"))
          else .returned none

/-- The function `UpgradeToLatest(vc)`, its loop unrolled under `fuel`: while
the version is not the latest tag, replace `vc` by `vc.Upgrade()`, or return
`nil` and the wrapped error when that call fails. The first component lists
the `Upgrade` calls made; `none` is a loop that has not ended within `fuel`
evaluations of its condition. -/
def UpgradeToLatest {Cfg : Type} (env : Collaborators Cfg) :
    Nat → Cfg → Option (List (Call Cfg) × (Option Cfg × Option GoError))
  | 0, _ => none
  | fuel + 1, vc =>
    if env.GetVersion vc != env.latest.Version then
      match env.Upgrade vc with
      | .error err =>
        some ([.Upgrade vc], (none, some (.wrap err "transforming skaffold config")))
      | .ok vc1 =>
        match UpgradeToLatest env fuel vc1 with
        | none => none
        | some (calls, res) => some (.Upgrade vc :: calls, res)
    else some ([], (some vc, none))

/-! ## The sequence of upgrades, and the ways `ParseConfig` ends -/

/-- The sequence `vc, vc.Upgrade(), vc.Upgrade().Upgrade(), ...`: its element
number `n`, or the error of the first `Upgrade` on the way that fails. -/
def upgradeChain {Cfg : Type} (env : Collaborators Cfg) : Nat → Cfg → Except GoError Cfg
  | 0, vc => .ok vc
  | n + 1, vc =>
    match env.Upgrade vc with
    | .error err => .error err
    | .ok vc1 => upgradeChain env n vc1

/-- The `Upgrade` calls on the first `n` elements of the sequence from `vc`, up
to the first one that fails. -/
def upgradeCalls {Cfg : Type} (env : Collaborators Cfg) : Nat → Cfg → List (Call Cfg)
  | 0, _ => []
  | n + 1, vc =>
    match env.Upgrade vc with
    | .error _ => [.Upgrade vc]
    | .ok vc1 => .Upgrade vc :: upgradeCalls env n vc1

/-- Element `n` of the sequence from `vc` is `r`, it is at the latest version,
and no element before it is. -/
def FirstLatestAt {Cfg : Type} (env : Collaborators Cfg) (vc : Cfg) (n : Nat) (r : Cfg) :
    Prop :=
  upgradeChain env n vc = .ok r ∧ env.GetVersion r = env.latest.Version ∧
    ∀ k < n, ∀ c, upgradeChain env k vc = .ok c → env.GetVersion c ≠ env.latest.Version

/-- Element `n` of the sequence from `vc` is `c`, no element up to it is at the
latest version, and `Upgrade` of `c` fails with `err`. -/
def FirstFailureAt {Cfg : Type} (env : Collaborators Cfg) (vc : Cfg) (n : Nat) (c : Cfg)
    (err : GoError) : Prop :=
  upgradeChain env n vc = .ok c ∧ env.Upgrade c = .error err ∧
    ∀ k ≤ n, ∀ c1, upgradeChain env k vc = .ok c1 → env.GetVersion c1 ≠ env.latest.Version

/-- The stages that have all succeeded when `ParseConfig` gives `cfg1`. -/
def AllStagesSucceed {Cfg : Type} (env : Collaborators Cfg) (filename : String)
    (applyDefaults : Bool) (cfg1 : Cfg) : Prop :=
  ∃ (buf : Bytes) (apiVersion : APIVersion) (factory : Unit → Cfg),
    env.ReadConfiguration filename = .ok buf ∧
    env.Unmarshal buf { Version := "" } = (apiVersion, none) ∧
    (schemaVersions env).Find apiVersion.Version = (some factory, true) ∧
    env.Parse (factory ()) buf applyDefaults = (cfg1, none) ∧
    env.ProcessStruct cfg1 = none

/-- The six ways `ParseConfig` ends, each with the calls it has made. -/
inductive ParseConfigEnds {Cfg : Type} (env : Collaborators Cfg) (filename : String)
    (applyDefaults : Bool) :
    List (Call Cfg) × Outcome (Option Cfg × Option GoError) → Prop where
  | readFails (err : GoError) (hread : env.ReadConfiguration filename = .error err) :
    ParseConfigEnds env filename applyDefaults
      ([.ReadConfiguration filename],
        .returned (none, some (.wrap err "read skaffold config")))
  | probeFails (buf : Bytes) (out : APIVersion) (err : GoError)
    (hread : env.ReadConfiguration filename = .ok buf)
    (hprobe : env.Unmarshal buf { Version := "" } = (out, some err)) :
    ParseConfigEnds env filename applyDefaults
      ([.ReadConfiguration filename, .Unmarshal buf],
        .returned (none, some (.wrap err "parsing api version")))
  | unknownVersion (buf : Bytes) (apiVersion : APIVersion)
    (hread : env.ReadConfiguration filename = .ok buf)
    (hprobe : env.Unmarshal buf { Version := "" } = (apiVersion, none))
    (hfind : ∀ e ∈ schemaVersions env, e.apiVersion ≠ apiVersion.Version) :
    ParseConfigEnds env filename applyDefaults
      ([.ReadConfiguration filename, .Unmarshal buf, .Find apiVersion.Version],
        .returned (none,
          some (.new ("unknown api version: \x27" ++ apiVersion.Version ++ "\x27"))))
  | parseFails (buf : Bytes) (apiVersion : APIVersion) (factory : Unit → Cfg)
    (cfg1 : Cfg) (err : GoError)
    (hread : env.ReadConfiguration filename = .ok buf)
    (hprobe : env.Unmarshal buf { Version := "" } = (apiVersion, none))
    (hfind : (schemaVersions env).Find apiVersion.Version = (some factory, true))
    (hparse : env.Parse (factory ()) buf applyDefaults = (cfg1, some err)) :
    ParseConfigEnds env filename applyDefaults
      ([.ReadConfiguration filename, .Unmarshal buf, .Find apiVersion.Version,
        .factory (factory ()), .Parse (factory ()) buf applyDefaults],
        .returned (none, some (.wrap err "unable to parse config")))
  | validationFails (buf : Bytes) (apiVersion : APIVersion) (factory : Unit → Cfg)
    (cfg1 : Cfg) (err : GoError)
    (hread : env.ReadConfiguration filename = .ok buf)
    (hprobe : env.Unmarshal buf { Version := "" } = (apiVersion, none))
    (hfind : (schemaVersions env).Find apiVersion.Version = (some factory, true))
    (hparse : env.Parse (factory ()) buf applyDefaults = (cfg1, none))
    (hval : env.ProcessStruct cfg1 = some err) :
    ParseConfigEnds env filename applyDefaults
      ([.ReadConfiguration filename, .Unmarshal buf, .Find apiVersion.Version,
        .factory (factory ()), .Parse (factory ()) buf applyDefaults, .ProcessStruct cfg1],
        .returned (none, some (.wrap err "invalid config")))
  | succeeds (buf : Bytes) (apiVersion : APIVersion) (factory : Unit → Cfg) (cfg1 : Cfg)
    (hread : env.ReadConfiguration filename = .ok buf)
    (hprobe : env.Unmarshal buf { Version := "" } = (apiVersion, none))
    (hfind : (schemaVersions env).Find apiVersion.Version = (some factory, true))
    (hparse : env.Parse (factory ()) buf applyDefaults = (cfg1, none))
    (hval : env.ProcessStruct cfg1 = none) :
    ParseConfigEnds env filename applyDefaults
      ([.ReadConfiguration filename, .Unmarshal buf, .Find apiVersion.Version,
        .factory (factory ()), .Parse (factory ()) buf applyDefaults, .ProcessStruct cfg1],
        .returned (some cfg1, none))

/-! ## The version modules, from their contract

The packages `v1alpha1`, ..., `latest` are not in the source tree. What follows
is their contract as the specification gives it. -/

/-- Modelled from the spec: a value of `util.VersionedConfig` as a version
module makes it (the packages `v1alpha1`, ..., `latest` are missing). Spec §3
and §9: one concrete shape per schema version, each variant keyed by its
constant version tag. `version` is that tag, `fields` the content of the shape. -/
structure SpecConfig (Fields : Type) where
  version : String
  fields : Fields
  deriving DecidableEq, Repr

/-- Modelled from the spec: what the five version modules are free to choose
(their code is missing): the constant tag of each, the content of the empty
instance a factory produces (glossary, "Factory"), the parsing rules of each
version, which fill the fields from the bytes and honour the apply-defaults
flag (§4.3 step 3), and the single upgrade step (§6). -/
structure SpecModules (Fields : Type) where
  v1alpha1 : String
  v1alpha2 : String
  v1alpha3 : String
  v1alpha4 : String
  latest : String
  empty : String → Fields
  parse : String → Fields → Bytes → Bool → Fields × Option GoError
  upgrade : SpecConfig Fields → Except GoError (SpecConfig Fields)

/-- Modelled from the spec: the collaborators when the version modules (which
are missing) keep the contract of §6. `GetVersion()` gives the version tag,
"constant per version": it is the tag of the variant, which `Parse` does not
write, since `Parse` fills the fields of the receiver; the factory of a
version produces an empty instance of that version. The document reader, the
decoder of the probe and the tag validator stay parameters. -/
def specCollaborators {Fields : Type} (mods : SpecModules Fields)
    (ReadConfiguration : String → Except GoError Bytes)
    (Unmarshal : Bytes → APIVersion → APIVersion × Option GoError)
    (ProcessStruct : SpecConfig Fields → Option GoError) :
    Collaborators (SpecConfig Fields) where
  ReadConfiguration := ReadConfiguration
  Unmarshal := Unmarshal
  v1alpha1 := ⟨mods.v1alpha1, fun _ => ⟨mods.v1alpha1, mods.empty mods.v1alpha1⟩⟩
  v1alpha2 := ⟨mods.v1alpha2, fun _ => ⟨mods.v1alpha2, mods.empty mods.v1alpha2⟩⟩
  v1alpha3 := ⟨mods.v1alpha3, fun _ => ⟨mods.v1alpha3, mods.empty mods.v1alpha3⟩⟩
  v1alpha4 := ⟨mods.v1alpha4, fun _ => ⟨mods.v1alpha4, mods.empty mods.v1alpha4⟩⟩
  latest := ⟨mods.latest, fun _ => ⟨mods.latest, mods.empty mods.latest⟩⟩
  GetVersion := fun cfg => cfg.version
  Parse := fun cfg buf applyDefaults =>
    ((⟨cfg.version, (mods.parse cfg.version cfg.fields buf applyDefaults).1⟩ :
        SpecConfig Fields),
      (mods.parse cfg.version cfg.fields buf applyDefaults).2)
  Upgrade := mods.upgrade
  ProcessStruct := ProcessStruct

/-! ## A concrete set of collaborators

Documents are lines `key: value`; the tags are those of the five version
modules. -/

/-- A config object with the version it reports and one payload field. -/
structure DemoConfig where
  apiVersion : String
  name : String
  deriving DecidableEq, Repr

/-- The bytes of a text. -/
def bytesOf (s : String) : Bytes := s.toList.map (fun c => c.toNat.toUInt8)

/-- The text of some bytes. -/
def stringOf (b : Bytes) : String := String.mk (b.map (fun x => Char.ofNat x.toNat))

/-- The lines of a document (split at byte 10). -/
def demoLines : Bytes → List Bytes
  | [] => [[]]
  | b :: rest =>
    match demoLines rest with
    | [] => [[b]]
    | l :: ls => if b = 10 then [] :: l :: ls else (b :: l) :: ls

/-- The value of the first line `key: value` of a document. -/
def demoField (key : String) (buf : Bytes) : Option String :=
  (demoLines buf).findSome? (fun l =>
    if (bytesOf (key ++ ": ")).isPrefixOf l then
      some (stringOf (l.drop (bytesOf (key ++ ": ")).length))
    else none)

/-- What the decoder rejects: a document that starts with `@`, which starts no
token, and a document that is a sequence (it starts with `- `), which is not a
mapping and cannot be written into a struct. -/
def demoDecodeError (buf : Bytes) : Option GoError :=
  if buf.head? = some 64 then
    some (.new "yaml: found character that cannot start any token")
  else if (bytesOf "- ").isPrefixOf buf then
    some (.new "yaml: unmarshal errors: line 1: cannot unmarshal !!seq into struct")
  else none

/-- A decoder for `APIVersion`: a document the decoder rejects gives its error;
otherwise the field `apiVersion` is written when the key is there. -/
def demoUnmarshal (buf : Bytes) (out : APIVersion) : APIVersion × Option GoError :=
  match demoDecodeError buf with
  | some err => (out, some err)
  | none =>
    match demoField "apiVersion" buf with
    | some v => ({ Version := v }, none)
    | none => (out, none)

/-- The files of the concrete document source. -/
def demoRead (filename : String) : Except GoError Bytes :=
  if filename = "v1alpha1.yaml" then
    .ok (bytesOf "apiVersion: skaffold/v1alpha1\nname: x")
  else if filename = "v9.yaml" then .ok (bytesOf "apiVersion: v9\nname: x")
  else if filename = "nokey.yaml" then .ok (bytesOf "kind: Config\nname: x")
  else if filename = "empty.yaml" then .ok (bytesOf "apiVersion: \nname: x")
  else if filename = "seq.yaml" then .ok (bytesOf "- a\n- b")
  else .error (.new ("open " ++ filename ++ ": no such file or directory"))

/-- Parsing into a config: the fields present in the document are written, and
an absent name is defaulted when defaults are asked for. -/
def demoParse (cfg : DemoConfig) (buf : Bytes) (applyDefaults : Bool) :
    DemoConfig × Option GoError :=
  match demoDecodeError buf with
  | some err => (cfg, some err)
  | none =>
    let c1 : DemoConfig :=
      { apiVersion := (demoField "apiVersion" buf).getD cfg.apiVersion,
        name := (demoField "name" buf).getD cfg.name }
    (if applyDefaults && c1.name = "" then { c1 with name := "default" } else c1, none)

/-- One step up the chain of the five versions. -/
def demoUpgrade (cfg : DemoConfig) : Except GoError DemoConfig :=
  if cfg.apiVersion = "skaffold/v1alpha1" then .ok { cfg with apiVersion := "skaffold/v1alpha2" }
  else if cfg.apiVersion = "skaffold/v1alpha2" then
    .ok { cfg with apiVersion := "skaffold/v1alpha3" }
  else if cfg.apiVersion = "skaffold/v1alpha3" then
    .ok { cfg with apiVersion := "skaffold/v1alpha4" }
  else if cfg.apiVersion = "skaffold/v1alpha4" then
    .ok { cfg with apiVersion := "skaffold/v1alpha5" }
  else .error (.new "no upgrade path")

/-- The concrete collaborators. -/
def demo : Collaborators DemoConfig where
  ReadConfiguration := demoRead
  Unmarshal := demoUnmarshal
  v1alpha1 := ⟨"skaffold/v1alpha1", fun _ => ⟨"skaffold/v1alpha1", ""⟩⟩
  v1alpha2 := ⟨"skaffold/v1alpha2", fun _ => ⟨"skaffold/v1alpha2", ""⟩⟩
  v1alpha3 := ⟨"skaffold/v1alpha3", fun _ => ⟨"skaffold/v1alpha3", ""⟩⟩
  v1alpha4 := ⟨"skaffold/v1alpha4", fun _ => ⟨"skaffold/v1alpha4", ""⟩⟩
  latest := ⟨"skaffold/v1alpha5", fun _ => ⟨"skaffold/v1alpha5", ""⟩⟩
  GetVersion := fun cfg => cfg.apiVersion
  Parse := demoParse
  Upgrade := demoUpgrade
  ProcessStruct := fun cfg =>
    if cfg.name = "" then some (.new "required value not set: name") else none

/-- Concrete version modules under the contract: the tags of the five
versions, one field (the name), read from the line `name: value`. -/
def demoModules : SpecModules String where
  v1alpha1 := "skaffold/v1alpha1"
  v1alpha2 := "skaffold/v1alpha2"
  v1alpha3 := "skaffold/v1alpha3"
  v1alpha4 := "skaffold/v1alpha4"
  latest := "skaffold/v1alpha5"
  empty := fun _ => ""
  parse := fun _ fields buf applyDefaults =>
    match demoDecodeError buf with
    | some err => (fields, some err)
    | none =>
      (if applyDefaults && (demoField "name" buf).getD fields = "" then "default"
        else (demoField "name" buf).getD fields, none)
  upgrade := fun cfg =>
    if cfg.version = "skaffold/v1alpha1" then .ok ⟨"skaffold/v1alpha2", cfg.fields⟩
    else if cfg.version = "skaffold/v1alpha2" then .ok ⟨"skaffold/v1alpha3", cfg.fields⟩
    else if cfg.version = "skaffold/v1alpha3" then .ok ⟨"skaffold/v1alpha4", cfg.fields⟩
    else if cfg.version = "skaffold/v1alpha4" then .ok ⟨"skaffold/v1alpha5", cfg.fields⟩
    else .error (.new "no upgrade path")

/-- The tag validator of the concrete modules: the name is required. -/
def demoValidate (cfg : SpecConfig String) : Option GoError :=
  if cfg.fields = "" then some (.new "required value not set: name") else none

/-- The concrete collaborators with a version module whose `Upgrade` fails:
the step from `v1alpha1` works, every other step fails with the same cause. -/
def demoBroken : Collaborators DemoConfig :=
  { demo with
    Upgrade := fun cfg =>
      if cfg.apiVersion = "skaffold/v1alpha1" then demoUpgrade cfg
      else .error (.new "cannot convert build section") }

/-- A concrete comparator: the rank of each tag in release order. -/
def demoApiversion : Comparator Nat where
  Parse := fun v =>
    if v = "skaffold/v1alpha1" then .ok 1
    else if v = "skaffold/v1alpha2" then .ok 2
    else if v = "skaffold/v1alpha3" then .ok 3
    else if v = "skaffold/v1alpha4" then .ok 4
    else if v = "skaffold/v1alpha5" then .ok 5
    else if v = "skaffold/v2alpha1" then .ok 6
    else .error (.new (v ++ " is an invalid api version"))

/-! ## The registry lookup -/

theorem Find_of_forall_ne {Cfg : Type} (v : versions Cfg) (apiVersion : String)
    (h : ∀ e ∈ v, e.apiVersion ≠ apiVersion) : v.Find apiVersion = (none, false) := by
  induction v with
  | nil => rfl
  | cons a rest ih =>
    have ha : a.apiVersion ≠ apiVersion := h a (List.mem_cons_self _ _)
    have hr : ∀ e ∈ rest, e.apiVersion ≠ apiVersion :=
      fun e he => h e (List.mem_cons_of_mem _ he)
    simp [versions.Find, ha, ih hr]

theorem Find_append_cons {Cfg : Type} (pre post : versions Cfg) (e : version Cfg)
    (apiVersion : String) (hpre : ∀ x ∈ pre, x.apiVersion ≠ apiVersion)
    (he : e.apiVersion = apiVersion) :
    versions.Find (pre ++ e :: post) apiVersion = (some e.factory, true) := by
  induction pre with
  | nil => simp [versions.Find, he]
  | cons a rest ih =>
    have ha : a.apiVersion ≠ apiVersion := hpre a (List.mem_cons_self _ _)
    have hr : ∀ x ∈ rest, x.apiVersion ≠ apiVersion :=
      fun x hx => hpre x (List.mem_cons_of_mem _ hx)
    simp [versions.Find, ha, ih hr]

theorem Find_of_exists {Cfg : Type} (v : versions Cfg) (apiVersion : String)
    (h : ∃ e ∈ v, e.apiVersion = apiVersion) :
    ∃ e ∈ v, e.apiVersion = apiVersion ∧ v.Find apiVersion = (some e.factory, true) := by
  induction v with
  | nil => simp at h
  | cons a rest ih =>
    by_cases ha : a.apiVersion = apiVersion
    · exact ⟨a, List.mem_cons_self _ _, ha, by simp [versions.Find, ha]⟩
    · have hr : ∃ e ∈ rest, e.apiVersion = apiVersion := by
        obtain ⟨e, he, het⟩ := h
        rcases List.mem_cons.1 he with rfl | he
        · exact absurd het ha
        · exact ⟨e, he, het⟩
      obtain ⟨e, he, het, hf⟩ := ih hr
      exact ⟨e, List.mem_cons_of_mem _ he, het, by simp [versions.Find, ha, hf]⟩

theorem Find_snd_eq_true_iff {Cfg : Type} (v : versions Cfg) (apiVersion : String) :
    (v.Find apiVersion).2 = true ↔ ∃ e ∈ v, e.apiVersion = apiVersion := by
  constructor
  · intro h
    by_contra hne
    have hall : ∀ e ∈ v, e.apiVersion ≠ apiVersion := fun e he het => hne ⟨e, he, het⟩
    rw [Find_of_forall_ne v apiVersion hall] at h
    exact Bool.false_ne_true h
  · intro h
    obtain ⟨e, _, _, hf⟩ := Find_of_exists v apiVersion h
    rw [hf]

theorem Find_perm {Cfg : Type} (v w : versions Cfg) (apiVersion : String)
    (hnd : (v.map (fun e => e.apiVersion)).Nodup) (hp : v.Perm w) :
    w.Find apiVersion = v.Find apiVersion := by
  by_cases h : ∃ e ∈ v, e.apiVersion = apiVersion
  · have hw : ∃ e ∈ w, e.apiVersion = apiVersion := by
      obtain ⟨e, he, het⟩ := h
      exact ⟨e, hp.mem_iff.1 he, het⟩
    obtain ⟨e1, he1, ht1, hf1⟩ := Find_of_exists v apiVersion h
    obtain ⟨e2, he2, ht2, hf2⟩ := Find_of_exists w apiVersion hw
    have he2v : e2 ∈ v := hp.mem_iff.2 he2
    have : e2 = e1 :=
      List.inj_on_of_nodup_map hnd he2v he1 (by rw [ht1, ht2])
    rw [hf1, hf2, this]
  · have hv : ∀ e ∈ v, e.apiVersion ≠ apiVersion := fun e he het => h ⟨e, he, het⟩
    have hw : ∀ e ∈ w, e.apiVersion ≠ apiVersion :=
      fun e he het => h ⟨e, hp.mem_iff.2 he, het⟩
    rw [Find_of_forall_ne v apiVersion hv, Find_of_forall_ne w apiVersion hw]

/-- C9. `Find` is total and, for every registry and tag: `present` is true
exactly when some entry carries the tag; the factory returned is then that of
the first such entry in registry order; when no entry carries the tag the
result is `(nil, false)`; and if the tags of the registry are pairwise
distinct, every reordering of the registry gives the same result. -/
theorem C9_Find_first_match {Cfg : Type} (v : versions Cfg) (apiVersion : String) :
    ((v.Find apiVersion).2 = true ↔ ∃ e ∈ v, e.apiVersion = apiVersion) ∧
    (∀ (pre post : versions Cfg) (e : version Cfg), v = pre ++ e :: post →
      (∀ x ∈ pre, x.apiVersion ≠ apiVersion) → e.apiVersion = apiVersion →
      v.Find apiVersion = (some e.factory, true)) ∧
    ((∀ e ∈ v, e.apiVersion ≠ apiVersion) → v.Find apiVersion = (none, false)) ∧
    (∀ w : versions Cfg, (v.map (fun e => e.apiVersion)).Nodup → v.Perm w →
      w.Find apiVersion = v.Find apiVersion) := by
  refine ⟨Find_snd_eq_true_iff v apiVersion, ?_, Find_of_forall_ne v apiVersion, ?_⟩
  · intro pre post e hv hpre he
    rw [hv]
    exact Find_append_cons pre post e apiVersion hpre he
  · intro w hnd hp
    exact Find_perm v w apiVersion hnd hp

/-! ## `ParseConfig`, stage by stage -/

theorem Find_ne_none_true {Cfg : Type} (v : versions Cfg) (apiVersion : String) :
    v.Find apiVersion ≠ (none, true) := by
  intro h
  have h2 : (v.Find apiVersion).2 = true := by rw [h]
  obtain ⟨e, _, _, hf⟩ := Find_of_exists v apiVersion ((Find_snd_eq_true_iff v apiVersion).1 h2)
  rw [hf] at h
  simp at h

theorem ParseConfig_read_error {Cfg : Type} (env : Collaborators Cfg) (filename : String)
    (applyDefaults : Bool) (err : GoError)
    (hread : env.ReadConfiguration filename = .error err) :
    ParseConfig env filename applyDefaults =
      ([.ReadConfiguration filename],
        .returned (none, some (.wrap err "read skaffold config"))) := by
  simp [ParseConfig, hread]

theorem ParseConfig_probe_error {Cfg : Type} (env : Collaborators Cfg) (filename : String)
    (applyDefaults : Bool) (buf : Bytes) (out : APIVersion) (err : GoError)
    (hread : env.ReadConfiguration filename = .ok buf)
    (hprobe : env.Unmarshal buf { Version := "" } = (out, some err)) :
    ParseConfig env filename applyDefaults =
      ([.ReadConfiguration filename, .Unmarshal buf],
        .returned (none, some (.wrap err "parsing api version"))) := by
  simp [ParseConfig, hread, hprobe]

theorem ParseConfig_unknown {Cfg : Type} (env : Collaborators Cfg) (filename : String)
    (applyDefaults : Bool) (buf : Bytes) (apiVersion : APIVersion)
    (hread : env.ReadConfiguration filename = .ok buf)
    (hprobe : env.Unmarshal buf { Version := "" } = (apiVersion, none))
    (hfind : ∀ e ∈ schemaVersions env, e.apiVersion ≠ apiVersion.Version) :
    ParseConfig env filename applyDefaults =
      ([.ReadConfiguration filename, .Unmarshal buf, .Find apiVersion.Version],
        .returned (none,
          some (.new ("unknown api version: \x27" ++ apiVersion.Version ++ "\x27")))) := by
  simp [ParseConfig, hread, hprobe, Find_of_forall_ne _ _ hfind]

theorem ParseConfig_parse_error {Cfg : Type} (env : Collaborators Cfg) (filename : String)
    (applyDefaults : Bool) (buf : Bytes) (apiVersion : APIVersion) (factory : Unit → Cfg)
    (cfg1 : Cfg) (err : GoError)
    (hread : env.ReadConfiguration filename = .ok buf)
    (hprobe : env.Unmarshal buf { Version := "" } = (apiVersion, none))
    (hfind : (schemaVersions env).Find apiVersion.Version = (some factory, true))
    (hparse : env.Parse (factory ()) buf applyDefaults = (cfg1, some err)) :
    ParseConfig env filename applyDefaults =
      ([.ReadConfiguration filename, .Unmarshal buf, .Find apiVersion.Version,
        .factory (factory ()), .Parse (factory ()) buf applyDefaults],
        .returned (none, some (.wrap err "unable to parse config"))) := by
  simp [ParseConfig, hread, hprobe, hfind, hparse]

theorem ParseConfig_validate_error {Cfg : Type} (env : Collaborators Cfg)
    (filename : String) (applyDefaults : Bool) (buf : Bytes) (apiVersion : APIVersion)
    (factory : Unit → Cfg) (cfg1 : Cfg) (err : GoError)
    (hread : env.ReadConfiguration filename = .ok buf)
    (hprobe : env.Unmarshal buf { Version := "" } = (apiVersion, none))
    (hfind : (schemaVersions env).Find apiVersion.Version = (some factory, true))
    (hparse : env.Parse (factory ()) buf applyDefaults = (cfg1, none))
    (hval : env.ProcessStruct cfg1 = some err) :
    ParseConfig env filename applyDefaults =
      ([.ReadConfiguration filename, .Unmarshal buf, .Find apiVersion.Version,
        .factory (factory ()), .Parse (factory ()) buf applyDefaults, .ProcessStruct cfg1],
        .returned (none, some (.wrap err "invalid config"))) := by
  simp [ParseConfig, hread, hprobe, hfind, hparse, hval]

theorem ParseConfig_ok {Cfg : Type} (env : Collaborators Cfg)
    (filename : String) (applyDefaults : Bool) (buf : Bytes) (apiVersion : APIVersion)
    (factory : Unit → Cfg) (cfg1 : Cfg)
    (hread : env.ReadConfiguration filename = .ok buf)
    (hprobe : env.Unmarshal buf { Version := "" } = (apiVersion, none))
    (hfind : (schemaVersions env).Find apiVersion.Version = (some factory, true))
    (hparse : env.Parse (factory ()) buf applyDefaults = (cfg1, none))
    (hval : env.ProcessStruct cfg1 = none) :
    ParseConfig env filename applyDefaults =
      ([.ReadConfiguration filename, .Unmarshal buf, .Find apiVersion.Version,
        .factory (factory ()), .Parse (factory ()) buf applyDefaults, .ProcessStruct cfg1],
        .returned (some cfg1, none)) := by
  simp [ParseConfig, hread, hprobe, hfind, hparse, hval]

theorem ParseConfig_ends {Cfg : Type} (env : Collaborators Cfg)
    (filename : String) (applyDefaults : Bool) :
    ParseConfigEnds env filename applyDefaults (ParseConfig env filename applyDefaults) := by
  rcases hR : env.ReadConfiguration filename with err | buf
  · rw [ParseConfig_read_error env filename applyDefaults err hR]
    exact .readFails err hR
  · rcases hU : env.Unmarshal buf { Version := "" } with ⟨apiVersion, _ | err⟩
    · by_cases hne : ∀ e ∈ schemaVersions env, e.apiVersion ≠ apiVersion.Version
      · rw [ParseConfig_unknown env filename applyDefaults buf apiVersion hR hU hne]
        exact .unknownVersion buf apiVersion hR hU hne
      · have hex : ∃ e ∈ schemaVersions env, e.apiVersion = apiVersion.Version := by
          by_contra hc
          exact hne (fun e he het => hc ⟨e, he, het⟩)
        obtain ⟨e, _, _, hF⟩ := Find_of_exists _ _ hex
        rcases hP : env.Parse (e.factory ()) buf applyDefaults with ⟨cfg1, _ | err⟩
        · rcases hV : env.ProcessStruct cfg1 with _ | err
          · rw [ParseConfig_ok env filename applyDefaults buf apiVersion e.factory cfg1
              hR hU hF hP hV]
            exact .succeeds buf apiVersion e.factory cfg1 hR hU hF hP hV
          · rw [ParseConfig_validate_error env filename applyDefaults buf apiVersion
              e.factory cfg1 err hR hU hF hP hV]
            exact .validationFails buf apiVersion e.factory cfg1 err hR hU hF hP hV
        · rw [ParseConfig_parse_error env filename applyDefaults buf apiVersion e.factory
            cfg1 err hR hU hF hP]
          exact .parseFails buf apiVersion e.factory cfg1 err hR hU hF hP
    · rw [ParseConfig_probe_error env filename applyDefaults buf apiVersion err hR hU]
      exact .probeFails buf apiVersion err hR hU

theorem ParseConfig_success_inv {Cfg : Type} (env : Collaborators Cfg)
    (filename : String) (applyDefaults : Bool) (calls : List (Call Cfg))
    (ocfg : Option Cfg) (oerr : Option GoError)
    (h : ParseConfig env filename applyDefaults = (calls, .returned (ocfg, oerr)))
    (hs : oerr = none ∨ ocfg ≠ none) :
    ∃ (buf : Bytes) (apiVersion : APIVersion) (factory : Unit → Cfg) (cfg1 : Cfg),
      env.ReadConfiguration filename = .ok buf ∧
      env.Unmarshal buf { Version := "" } = (apiVersion, none) ∧
      (schemaVersions env).Find apiVersion.Version = (some factory, true) ∧
      env.Parse (factory ()) buf applyDefaults = (cfg1, none) ∧
      env.ProcessStruct cfg1 = none ∧ ocfg = some cfg1 ∧ oerr = none ∧
      calls = [.ReadConfiguration filename, .Unmarshal buf, .Find apiVersion.Version,
        .factory (factory ()), .Parse (factory ()) buf applyDefaults,
        .ProcessStruct cfg1] := by
  have hends := ParseConfig_ends env filename applyDefaults
  rw [h] at hends
  cases hends with
  | readFails err hread => simp at hs
  | probeFails buf out err hread hprobe => simp at hs
  | unknownVersion buf apiVersion hread hprobe hfind => simp at hs
  | parseFails buf apiVersion factory cfg1 err hread hprobe hfind hparse => simp at hs
  | validationFails buf apiVersion factory cfg1 err hread hprobe hfind hparse hval =>
    simp at hs
  | succeeds buf apiVersion factory cfg1 hread hprobe hfind hparse hval =>
    exact ⟨buf, apiVersion, factory, cfg1, hread, hprobe, hfind, hparse, hval, rfl, rfl, rfl⟩

/-- C1. When the bytes are read and probed without error and the probed tag is
the tag of no entry of `schemaVersions`, `ParseConfig` returns `nil` for the
config together with the error `unknown api version: 'tag'`, whose text names
the tag; the calls it has made are the read, the probe and the lookup, so no
factory, no `Parse` of a version module and no `ProcessStruct` is called. -/
theorem C1_ParseConfig_unknown_version {Cfg : Type} (env : Collaborators Cfg)
    (filename : String) (applyDefaults : Bool) (buf : Bytes) (apiVersion : APIVersion)
    (hread : env.ReadConfiguration filename = .ok buf)
    (hprobe : env.Unmarshal buf { Version := "" } = (apiVersion, none))
    (hunknown : ∀ e ∈ schemaVersions env, e.apiVersion ≠ apiVersion.Version) :
    (ParseConfig env filename applyDefaults).2 =
      .returned (none,
        some (.new ("unknown api version: \x27" ++ apiVersion.Version ++ "\x27"))) ∧
    (ParseConfig env filename applyDefaults).1 =
      [.ReadConfiguration filename, .Unmarshal buf, .Find apiVersion.Version] ∧
    ∀ c ∈ (ParseConfig env filename applyDefaults).1,
      (∀ cfg, c ≠ .factory cfg) ∧ (∀ cfg b d, c ≠ .Parse cfg b d) ∧
      (∀ cfg, c ≠ .ProcessStruct cfg) := by
  rw [ParseConfig_unknown env filename applyDefaults buf apiVersion hread hprobe hunknown]
  refine ⟨rfl, rfl, ?_⟩
  intro c hc
  simp only [List.mem_cons, List.mem_singleton, List.not_mem_nil, or_false] at hc
  rcases hc with rfl | rfl | rfl <;> simp

theorem specCollaborators_factory_version {Fields : Type} (mods : SpecModules Fields)
    (read : String → Except GoError Bytes)
    (unmarshal : Bytes → APIVersion → APIVersion × Option GoError)
    (validate : SpecConfig Fields → Option GoError) :
    ∀ e ∈ schemaVersions (specCollaborators mods read unmarshal validate),
      (e.factory ()).version = e.apiVersion := by
  intro e he
  simp only [schemaVersions, List.mem_cons, List.mem_singleton, List.not_mem_nil,
    or_false] at he
  rcases he with rfl | rfl | rfl | rfl | rfl <;> rfl

/-- C2. `ParseConfig` is tag-preserving. With version modules that keep their
contract (`GetVersion()` constant per version), whatever the document source,
the decoder of the probe, the tag validator, the tags, the parsing rules and
the upgrade steps are: whenever `ParseConfig` returns without error, for either
value of `applyDefaults`, the read and the probe have succeeded, an object is
returned, `GetVersion()` of it is the tag probed from the document, and no
`Upgrade` has been called. -/
theorem C2_ParseConfig_tag_preserving {Fields : Type} (mods : SpecModules Fields)
    (read : String → Except GoError Bytes)
    (unmarshal : Bytes → APIVersion → APIVersion × Option GoError)
    (validate : SpecConfig Fields → Option GoError)
    (filename : String) (applyDefaults : Bool)
    (calls : List (Call (SpecConfig Fields))) (ocfg : Option (SpecConfig Fields))
    (hsuccess : ParseConfig (specCollaborators mods read unmarshal validate) filename
      applyDefaults = (calls, .returned (ocfg, none))) :
    ∃ (buf : Bytes) (apiVersion : APIVersion) (cfg : SpecConfig Fields),
      read filename = .ok buf ∧
      unmarshal buf { Version := "" } = (apiVersion, none) ∧
      ocfg = some cfg ∧
      (specCollaborators mods read unmarshal validate).GetVersion cfg =
        apiVersion.Version ∧
      ∀ c ∈ calls, ∀ vc, c ≠ .Upgrade vc := by
  obtain ⟨buf, apiVersion, factory, cfg1, hR, hU, hF, hP, _, hcfg, _, hcalls⟩ :=
    ParseConfig_success_inv _ filename applyDefaults calls ocfg none hsuccess (Or.inl rfl)
  have hex : ∃ e ∈ schemaVersions (specCollaborators mods read unmarshal validate),
      e.apiVersion = apiVersion.Version := by
    apply (Find_snd_eq_true_iff _ _).1
    rw [hF]
  obtain ⟨e, he, het, hFe⟩ := Find_of_exists _ _ hex
  have hfac : factory = e.factory := by
    rw [hF] at hFe
    simpa using hFe
  subst hfac
  have hmade := specCollaborators_factory_version mods read unmarshal validate e he
  have hkept : cfg1.version = (e.factory ()).version := by
    have h1 := congrArg Prod.fst hP
    simp only [specCollaborators] at h1
    rw [← h1]
  refine ⟨buf, apiVersion, cfg1, hR, hU, hcfg, ?_, ?_⟩
  · show cfg1.version = apiVersion.Version
    rw [hkept, hmade, het]
  · intro c hc vc
    rw [hcalls] at hc
    simp only [List.mem_cons, List.mem_singleton, List.not_mem_nil, or_false] at hc
    rcases hc with rfl | rfl | rfl | rfl | rfl | rfl <;> simp

/-- C7, as the code has it. For a document that is read, what `ParseConfig`
does when the probe finds no version tag is decided by what `yaml.Unmarshal`
returns. It returns the probe-stage error, `parsing api version` wrapping the
error of `yaml.Unmarshal`, if and only if `yaml.Unmarshal` returns that error,
and then the calls made are the read and the probe: the registry lookup is not
made. When `yaml.Unmarshal` returns no error and leaves the tag empty, and no
registered tag is empty, `ParseConfig` does go on to the registry lookup, for
the empty tag, and returns `nil` with the error `unknown api version: ''`. -/
theorem C7_ParseConfig_empty_tag {Cfg : Type} (env : Collaborators Cfg)
    (filename : String) (applyDefaults : Bool) (buf : Bytes)
    (hread : env.ReadConfiguration filename = .ok buf) :
    (∀ err : GoError,
      (ParseConfig env filename applyDefaults).2 =
          .returned (none, some (.wrap err "parsing api version")) ↔
        ∃ out, env.Unmarshal buf { Version := "" } = (out, some err)) ∧
    (∀ (out : APIVersion) (err : GoError),
      env.Unmarshal buf { Version := "" } = (out, some err) →
      (ParseConfig env filename applyDefaults).1 =
        [.ReadConfiguration filename, .Unmarshal buf]) ∧
    (env.Unmarshal buf { Version := "" } = ({ Version := "" }, none) →
      (∀ e ∈ schemaVersions env, e.apiVersion ≠ "") →
      ParseConfig env filename applyDefaults =
        ([.ReadConfiguration filename, .Unmarshal buf, .Find ""],
          .returned (none, some (.new "unknown api version: \x27\x27")))) := by
  refine ⟨?_, ?_, ?_⟩
  · intro err
    constructor
    · intro h
      have hends := ParseConfig_ends env filename applyDefaults
      generalize ParseConfig env filename applyDefaults = r at h hends
      cases hends with
      | readFails err1 hread1 => rw [hread] at hread1; simp at hread1
      | probeFails buf1 out err1 hread1 hprobe =>
        rw [hread] at hread1
        have hb : buf = buf1 := by simpa using hread1
        subst hb
        have he : err1 = err := by simpa using h
        subst he
        exact ⟨out, hprobe⟩
      | unknownVersion buf1 apiVersion hread1 hprobe hfind => simp at h
      | parseFails buf1 apiVersion factory cfg1 err1 hread1 hprobe hfind hparse =>
        simp at h
      | validationFails buf1 apiVersion factory cfg1 err1 hread1 hprobe hfind hparse hval =>
        simp at h
      | succeeds buf1 apiVersion factory cfg1 hread1 hprobe hfind hparse hval => simp at h
    · rintro ⟨out, hprobe⟩
      rw [ParseConfig_probe_error env filename applyDefaults buf out err hread hprobe]
  · intro out err hprobe
    rw [ParseConfig_probe_error env filename applyDefaults buf out err hread hprobe]
  · intro hprobe hne
    exact ParseConfig_unknown env filename applyDefaults buf { Version := "" } hread hprobe hne

/-- C10. `ParseConfig` runs its stages in the order read, probe, registry
lookup, `Parse` of the version module, tag validation, and ends at the first
one that fails, with `nil` for the config and that stage's error wrapped with
its context (`read skaffold config`, `parsing api version`, `unable to parse
config`, `invalid config`; the unknown tag is an error of its own), having
called nothing of the later stages. `Parse` gets the bytes that were read and
the `applyDefaults` flag as given. A config is returned exactly when all five
stages succeed, and it is the object after `Parse`. `ParseConfig` never
panics. -/
theorem C10_ParseConfig_stages {Cfg : Type} (env : Collaborators Cfg)
    (filename : String) (applyDefaults : Bool) :
    (∀ err, env.ReadConfiguration filename = .error err →
      ParseConfig env filename applyDefaults =
        ([.ReadConfiguration filename],
          .returned (none, some (.wrap err "read skaffold config")))) ∧
    (∀ buf, env.ReadConfiguration filename = .ok buf →
      (∀ out err, env.Unmarshal buf { Version := "" } = (out, some err) →
        ParseConfig env filename applyDefaults =
          ([.ReadConfiguration filename, .Unmarshal buf],
            .returned (none, some (.wrap err "parsing api version")))) ∧
      (∀ apiVersion, env.Unmarshal buf { Version := "" } = (apiVersion, none) →
        ((∀ e ∈ schemaVersions env, e.apiVersion ≠ apiVersion.Version) →
          ParseConfig env filename applyDefaults =
            ([.ReadConfiguration filename, .Unmarshal buf, .Find apiVersion.Version],
              .returned (none, some (.new
                ("unknown api version: \x27" ++ apiVersion.Version ++ "\x27"))))) ∧
        (∀ factory,
          (schemaVersions env).Find apiVersion.Version = (some factory, true) →
          (∀ cfg1 err, env.Parse (factory ()) buf applyDefaults = (cfg1, some err) →
            ParseConfig env filename applyDefaults =
              ([.ReadConfiguration filename, .Unmarshal buf, .Find apiVersion.Version,
                .factory (factory ()), .Parse (factory ()) buf applyDefaults],
                .returned (none, some (.wrap err "unable to parse config")))) ∧
          (∀ cfg1, env.Parse (factory ()) buf applyDefaults = (cfg1, none) →
            (∀ err, env.ProcessStruct cfg1 = some err →
              ParseConfig env filename applyDefaults =
                ([.ReadConfiguration filename, .Unmarshal buf, .Find apiVersion.Version,
                  .factory (factory ()), .Parse (factory ()) buf applyDefaults,
                  .ProcessStruct cfg1],
                  .returned (none, some (.wrap err "invalid config")))) ∧
            (env.ProcessStruct cfg1 = none →
              ParseConfig env filename applyDefaults =
                ([.ReadConfiguration filename, .Unmarshal buf, .Find apiVersion.Version,
                  .factory (factory ()), .Parse (factory ()) buf applyDefaults,
                  .ProcessStruct cfg1],
                  .returned (some cfg1, none))))))) ∧
    (∀ cfg1, (∃ calls oerr, ParseConfig env filename applyDefaults =
        (calls, .returned (some cfg1, oerr))) ↔
      AllStagesSucceed env filename applyDefaults cfg1) ∧
    (∀ cfg1, AllStagesSucceed env filename applyDefaults cfg1 →
      (ParseConfig env filename applyDefaults).2 = .returned (some cfg1, none)) ∧
    (∀ e, (ParseConfig env filename applyDefaults).2 ≠ .panicked e) := by
  refine ⟨fun err h => ParseConfig_read_error env filename applyDefaults err h, ?_, ?_, ?_, ?_⟩
  · intro buf hR
    refine ⟨fun out err h => ParseConfig_probe_error env filename applyDefaults buf out err hR h,
      ?_⟩
    intro apiVersion hU
    refine ⟨fun h => ParseConfig_unknown env filename applyDefaults buf apiVersion hR hU h, ?_⟩
    intro factory hF
    refine ⟨fun cfg1 err h => ParseConfig_parse_error env filename applyDefaults buf
      apiVersion factory cfg1 err hR hU hF h, ?_⟩
    intro cfg1 hP
    exact ⟨fun err h => ParseConfig_validate_error env filename applyDefaults buf apiVersion
        factory cfg1 err hR hU hF hP h,
      fun h => ParseConfig_ok env filename applyDefaults buf apiVersion factory cfg1
        hR hU hF hP h⟩
  · intro cfg1
    constructor
    · rintro ⟨calls, oerr, h⟩
      obtain ⟨buf, apiVersion, factory, cfg2, hR, hU, hF, hP, hV, hcfg, _, _⟩ :=
        ParseConfig_success_inv env filename applyDefaults calls (some cfg1) oerr h
          (Or.inr (by simp))
      have hc : cfg1 = cfg2 := by simpa using hcfg
      subst hc
      exact ⟨buf, apiVersion, factory, hR, hU, hF, hP, hV⟩
    · rintro ⟨buf, apiVersion, factory, hR, hU, hF, hP, hV⟩
      exact ⟨_, none, ParseConfig_ok env filename applyDefaults buf apiVersion factory cfg1
        hR hU hF hP hV⟩
  · rintro cfg1 ⟨buf, apiVersion, factory, hR, hU, hF, hP, hV⟩
    rw [ParseConfig_ok env filename applyDefaults buf apiVersion factory cfg1 hR hU hF hP hV]
  · intro e h
    have hends := ParseConfig_ends env filename applyDefaults
    generalize ParseConfig env filename applyDefaults = r at h hends
    cases hends <;> simp at h

/-! ## `UpgradeToLatest` -/

theorem UpgradeToLatest_at_latest {Cfg : Type} (env : Collaborators Cfg) (fuel : Nat)
    (vc : Cfg) (h : env.GetVersion vc = env.latest.Version) :
    UpgradeToLatest env (fuel + 1) vc = some ([], (some vc, none)) := by
  simp [UpgradeToLatest, h]

theorem UpgradeToLatest_step {Cfg : Type} (env : Collaborators Cfg) (fuel : Nat)
    (vc vc1 : Cfg) (h : env.GetVersion vc ≠ env.latest.Version)
    (hU : env.Upgrade vc = .ok vc1) :
    UpgradeToLatest env (fuel + 1) vc =
      (UpgradeToLatest env fuel vc1).map (fun p => (.Upgrade vc :: p.1, p.2)) := by
  simp only [UpgradeToLatest, bne_iff_ne, ne_eq, h, not_false_eq_true, if_true, hU]
  cases UpgradeToLatest env fuel vc1 <;> rfl

theorem UpgradeToLatest_step_error {Cfg : Type} (env : Collaborators Cfg) (fuel : Nat)
    (vc : Cfg) (err : GoError) (h : env.GetVersion vc ≠ env.latest.Version)
    (hU : env.Upgrade vc = .error err) :
    UpgradeToLatest env (fuel + 1) vc =
      some ([.Upgrade vc], (none, some (.wrap err "transforming skaffold config"))) := by
  simp [UpgradeToLatest, h, hU]

theorem FirstLatestAt_succ {Cfg : Type} (env : Collaborators Cfg) (vc vc1 r : Cfg) (n : Nat)
    (hU : env.Upgrade vc = .ok vc1) (h : FirstLatestAt env vc (n + 1) r) :
    FirstLatestAt env vc1 n r := by
  obtain ⟨h1, h2, h3⟩ := h
  refine ⟨?_, h2, ?_⟩
  · simpa [upgradeChain, hU] using h1
  · intro k hk c hc
    exact h3 (k + 1) (Nat.succ_lt_succ hk) c (by simpa [upgradeChain, hU] using hc)

theorem FirstFailureAt_succ {Cfg : Type} (env : Collaborators Cfg) (vc vc1 c : Cfg)
    (err : GoError) (n : Nat)
    (hU : env.Upgrade vc = .ok vc1) (h : FirstFailureAt env vc (n + 1) c err) :
    FirstFailureAt env vc1 n c err := by
  obtain ⟨h1, h2, h3⟩ := h
  refine ⟨?_, h2, ?_⟩
  · simpa [upgradeChain, hU] using h1
  · intro k hk c1 hc
    exact h3 (k + 1) (Nat.succ_le_succ hk) c1 (by simpa [upgradeChain, hU] using hc)

theorem UpgradeToLatest_of_firstLatest {Cfg : Type} (env : Collaborators Cfg) :
    ∀ (n : Nat) (vc r : Cfg), FirstLatestAt env vc n r → ∀ fuel, n < fuel →
      UpgradeToLatest env fuel vc = some (upgradeCalls env n vc, (some r, none))
  | 0, vc, r, h, fuel, hf => by
    obtain ⟨h1, h2, _⟩ := h
    have hr : vc = r := by simpa [upgradeChain] using h1
    subst hr
    obtain ⟨f, rfl⟩ : ∃ f, fuel = f + 1 := ⟨fuel - 1, by omega⟩
    rw [UpgradeToLatest_at_latest env f vc h2]
    rfl
  | n + 1, vc, r, h, fuel, hf => by
    have hne : env.GetVersion vc ≠ env.latest.Version :=
      h.2.2 0 (Nat.succ_pos n) vc rfl
    obtain ⟨f, rfl⟩ : ∃ f, fuel = f + 1 := ⟨fuel - 1, by omega⟩
    rcases hU : env.Upgrade vc with err | vc1
    · have h1 := h.1
      simp [upgradeChain, hU] at h1
    · have ih := UpgradeToLatest_of_firstLatest env n vc1 r
        (FirstLatestAt_succ env vc vc1 r n hU h) f (by omega)
      rw [UpgradeToLatest_step env f vc vc1 hne hU, ih]
      simp [upgradeCalls, hU]

theorem UpgradeToLatest_of_firstFailure {Cfg : Type} (env : Collaborators Cfg) :
    ∀ (n : Nat) (vc c : Cfg) (err : GoError), FirstFailureAt env vc n c err →
      ∀ fuel, n < fuel →
      UpgradeToLatest env fuel vc =
        some (upgradeCalls env (n + 1) vc,
          (none, some (.wrap err "transforming skaffold config")))
  | 0, vc, c, err, h, fuel, hf => by
    obtain ⟨h1, h2, h3⟩ := h
    have hr : vc = c := by simpa [upgradeChain] using h1
    subst hr
    obtain ⟨f, rfl⟩ : ∃ f, fuel = f + 1 := ⟨fuel - 1, by omega⟩
    rw [UpgradeToLatest_step_error env f vc err (h3 0 (Nat.le_refl 0) vc rfl) h2]
    simp [upgradeCalls, h2]
  | n + 1, vc, c, err, h, fuel, hf => by
    have hne : env.GetVersion vc ≠ env.latest.Version :=
      h.2.2 0 (Nat.zero_le _) vc rfl
    obtain ⟨f, rfl⟩ : ∃ f, fuel = f + 1 := ⟨fuel - 1, by omega⟩
    rcases hU : env.Upgrade vc with err1 | vc1
    · have h1 := h.1
      simp [upgradeChain, hU] at h1
    · have ih := UpgradeToLatest_of_firstFailure env n vc1 c err
        (FirstFailureAt_succ env vc vc1 c err n hU h) f (by omega)
      rw [UpgradeToLatest_step env f vc vc1 hne hU, ih]
      simp [upgradeCalls, hU]

theorem FirstLatestAt_cons {Cfg : Type} (env : Collaborators Cfg) (vc vc1 r : Cfg) (n : Nat)
    (hne : env.GetVersion vc ≠ env.latest.Version) (hU : env.Upgrade vc = .ok vc1)
    (h : FirstLatestAt env vc1 n r) : FirstLatestAt env vc (n + 1) r := by
  obtain ⟨h1, h2, h3⟩ := h
  refine ⟨by simpa [upgradeChain, hU] using h1, h2, ?_⟩
  intro k hk c hc
  cases k with
  | zero =>
    have : vc = c := by simpa [upgradeChain] using hc
    subst this
    exact hne
  | succ k => exact h3 k (Nat.lt_of_succ_lt_succ hk) c (by simpa [upgradeChain, hU] using hc)

theorem FirstFailureAt_cons {Cfg : Type} (env : Collaborators Cfg) (vc vc1 c : Cfg)
    (err : GoError) (n : Nat)
    (hne : env.GetVersion vc ≠ env.latest.Version) (hU : env.Upgrade vc = .ok vc1)
    (h : FirstFailureAt env vc1 n c err) : FirstFailureAt env vc (n + 1) c err := by
  obtain ⟨h1, h2, h3⟩ := h
  refine ⟨by simpa [upgradeChain, hU] using h1, h2, ?_⟩
  intro k hk c1 hc
  cases k with
  | zero =>
    have : vc = c1 := by simpa [upgradeChain] using hc
    subst this
    exact hne
  | succ k => exact h3 k (Nat.le_of_succ_le_succ hk) c1 (by simpa [upgradeChain, hU] using hc)

theorem UpgradeToLatest_inv {Cfg : Type} (env : Collaborators Cfg) :
    ∀ (fuel : Nat) (vc : Cfg) (calls : List (Call Cfg)) (res : Option Cfg × Option GoError),
      UpgradeToLatest env fuel vc = some (calls, res) →
      (∃ n r, n < fuel ∧ FirstLatestAt env vc n r ∧ res = (some r, none) ∧
        calls = upgradeCalls env n vc) ∨
      (∃ n c err, n < fuel ∧ FirstFailureAt env vc n c err ∧
        res = (none, some (.wrap err "transforming skaffold config")) ∧
        calls = upgradeCalls env (n + 1) vc)
  | 0, vc, calls, res, h => by simp [UpgradeToLatest] at h
  | fuel + 1, vc, calls, res, h => by
    by_cases hv : env.GetVersion vc = env.latest.Version
    · rw [UpgradeToLatest_at_latest env fuel vc hv] at h
      simp only [Option.some.injEq, Prod.mk.injEq] at h
      refine Or.inl ⟨0, vc, Nat.succ_pos _, ⟨rfl, hv, ?_⟩, h.2.symm, h.1.symm⟩
      intro k hk
      exact absurd hk (Nat.not_lt_zero k)
    · rcases hU : env.Upgrade vc with err | vc1
      · rw [UpgradeToLatest_step_error env fuel vc err hv hU] at h
        simp only [Option.some.injEq, Prod.mk.injEq] at h
        refine Or.inr ⟨0, vc, err, Nat.succ_pos _, ⟨rfl, hU, ?_⟩, h.2.symm, ?_⟩
        · intro k hk c1 hc
          have hk0 : k = 0 := Nat.le_zero.1 hk
          subst hk0
          have : vc = c1 := by simpa [upgradeChain] using hc
          subst this
          exact hv
        · rw [← h.1]
          simp [upgradeCalls, hU]
      · rw [UpgradeToLatest_step env fuel vc vc1 hv hU] at h
        rcases hrec : UpgradeToLatest env fuel vc1 with _ | ⟨calls1, res1⟩
        · rw [hrec] at h
          simp at h
        · rw [hrec] at h
          simp only [Option.map_some', Option.some.injEq, Prod.mk.injEq] at h
          rcases UpgradeToLatest_inv env fuel vc1 calls1 res1 hrec with
            ⟨n, r, hn, hfl, hres, hcalls⟩ | ⟨n, c, err, hn, hff, hres, hcalls⟩
          · refine Or.inl ⟨n + 1, r, Nat.succ_lt_succ hn,
              FirstLatestAt_cons env vc vc1 r n hv hU hfl, ?_, ?_⟩
            · rw [← h.2, hres]
            · rw [← h.1, hcalls]
              simp [upgradeCalls, hU]
          · refine Or.inr ⟨n + 1, c, err, Nat.succ_lt_succ hn,
              FirstFailureAt_cons env vc vc1 c err n hv hU hff, ?_, ?_⟩
            · rw [← h.2, hres]
            · rw [← h.1, hcalls]
              simp [upgradeCalls, hU]

theorem UpgradeToLatest_none {Cfg : Type} (env : Collaborators Cfg) :
    ∀ (fuel : Nat) (vc : Cfg), UpgradeToLatest env fuel vc = none →
      ∀ k < fuel, ∃ c, upgradeChain env k vc = .ok c ∧
        env.GetVersion c ≠ env.latest.Version
  | 0, _, _, k, hk => absurd hk (Nat.not_lt_zero k)
  | fuel + 1, vc, h, k, hk => by
    by_cases hv : env.GetVersion vc = env.latest.Version
    · rw [UpgradeToLatest_at_latest env fuel vc hv] at h
      simp at h
    · rcases hU : env.Upgrade vc with err | vc1
      · rw [UpgradeToLatest_step_error env fuel vc err hv hU] at h
        simp at h
      · rw [UpgradeToLatest_step env fuel vc vc1 hv hU] at h
        have hrec : UpgradeToLatest env fuel vc1 = none := by
          cases hr : UpgradeToLatest env fuel vc1 with
          | none => rfl
          | some p =>
            rw [hr] at h
            simp at h
        cases k with
        | zero => exact ⟨vc, rfl, hv⟩
        | succ k =>
          obtain ⟨c, hc, hcv⟩ :=
            UpgradeToLatest_none env fuel vc1 hrec k (Nat.lt_of_succ_lt_succ hk)
          exact ⟨c, by simpa [upgradeChain, hU] using hc, hcv⟩

theorem upgradeCalls_length {Cfg : Type} (env : Collaborators Cfg) :
    ∀ (n : Nat) (vc r : Cfg), upgradeChain env n vc = .ok r →
      (upgradeCalls env n vc).length = n
  | 0, _, _, _ => rfl
  | n + 1, vc, r, h => by
    rcases hU : env.Upgrade vc with err | vc1
    · simp [upgradeChain, hU] at h
    · have h1 : upgradeChain env n vc1 = .ok r := by simpa [upgradeChain, hU] using h
      simp [upgradeCalls, hU, upgradeCalls_length env n vc1 r h1]

theorem upgradeCalls_get {Cfg : Type} (env : Collaborators Cfg) :
    ∀ (n k : Nat) (vc c : Cfg), k < n → upgradeChain env k vc = .ok c →
      (upgradeCalls env n vc)[k]? = some (.Upgrade c)
  | 0, k, _, _, hk, _ => absurd hk (Nat.not_lt_zero k)
  | n + 1, 0, vc, c, _, h => by
    have : vc = c := by simpa [upgradeChain] using h
    subst this
    cases hU : env.Upgrade vc <;> simp [upgradeCalls, hU]
  | n + 1, k + 1, vc, c, hk, h => by
    rcases hU : env.Upgrade vc with err | vc1
    · simp [upgradeChain, hU] at h
    · have h1 : upgradeChain env k vc1 = .ok c := by simpa [upgradeChain, hU] using h
      simp [upgradeCalls, hU,
        upgradeCalls_get env n k vc1 c (Nat.lt_of_succ_lt_succ hk) h1]

theorem upgradeCalls_failure_length {Cfg : Type} (env : Collaborators Cfg) :
    ∀ (n : Nat) (vc c : Cfg) (err : GoError), upgradeChain env n vc = .ok c →
      env.Upgrade c = .error err → (upgradeCalls env (n + 1) vc).length = n + 1
  | 0, vc, c, err, h, hc => by
    have : vc = c := by simpa [upgradeChain] using h
    subst this
    simp [upgradeCalls, hc]
  | n + 1, vc, c, err, h, hc => by
    rcases hU : env.Upgrade vc with err1 | vc1
    · simp [upgradeChain, hU] at h
    · have h1 : upgradeChain env n vc1 = .ok c := by simpa [upgradeChain, hU] using h
      have ih := upgradeCalls_failure_length env n vc1 c err h1 hc
      rw [upgradeCalls, hU]
      simp [ih]

/-- C3. Whenever `UpgradeToLatest` returns without error, what it returns is
the first element of the sequence `vc, vc.Upgrade(), ...` whose `GetVersion()`
is the latest tag: element `n` of it, for the least such `n`, after exactly the
`n` calls of `Upgrade` on the elements before it. Conversely, when the sequence
has such a first element, at index `n`, the loop ends within `n + 1`
evaluations of its condition and returns it. A config already at the latest
version is returned as it is, with no call of `Upgrade`. -/
theorem C3_UpgradeToLatest_first_latest {Cfg : Type} (env : Collaborators Cfg) (vc : Cfg) :
    (∀ (fuel : Nat) (calls : List (Call Cfg)) (ocfg : Option Cfg),
      UpgradeToLatest env fuel vc = some (calls, (ocfg, none)) →
      ∃ n r, ocfg = some r ∧ upgradeChain env n vc = .ok r ∧
        env.GetVersion r = env.latest.Version ∧
        (∀ k < n, ∀ c, upgradeChain env k vc = .ok c →
          env.GetVersion c ≠ env.latest.Version) ∧
        calls.length = n ∧
        ∀ k < n, ∀ c, upgradeChain env k vc = .ok c → calls[k]? = some (.Upgrade c)) ∧
    (∀ (n : Nat) (r : Cfg), FirstLatestAt env vc n r → ∀ fuel, n < fuel →
      ∃ calls, UpgradeToLatest env fuel vc = some (calls, (some r, none)) ∧
        calls.length = n) ∧
    (env.GetVersion vc = env.latest.Version →
      ∀ fuel, UpgradeToLatest env (fuel + 1) vc = some ([], (some vc, none))) := by
  refine ⟨?_, ?_, fun h fuel => UpgradeToLatest_at_latest env fuel vc h⟩
  · intro fuel calls ocfg h
    rcases UpgradeToLatest_inv env fuel vc calls (ocfg, none) h with
      ⟨n, r, _, hfl, hres, hcalls⟩ | ⟨n, c, err, _, _, hres, _⟩
    · refine ⟨n, r, by simpa using hres, hfl.1, hfl.2.1, hfl.2.2, ?_, ?_⟩
      · rw [hcalls]
        exact upgradeCalls_length env n vc r hfl.1
      · intro k hk c hc
        rw [hcalls]
        exact upgradeCalls_get env n k vc c hk hc
    · simp at hres
  · intro n r hfl fuel hf
    exact ⟨_, UpgradeToLatest_of_firstLatest env n vc r hfl fuel hf,
      upgradeCalls_length env n vc r hfl.1⟩

/-- C6. `UpgradeToLatest` exposes no partial result. Whatever it returns is
either a config at the latest version with no error, or `nil` with an error.
If the `Upgrade` of element `n` of the sequence from `vc` is the first to fail
(no element up to it being at the latest version), the loop ends at that step:
it returns `nil` with an error after exactly `n + 1` calls of `Upgrade`, one on
each element up to the failing one, which is the last call. As long as it has
not returned, every element seen so far is an upgraded config below the latest
version: the loop is still running. -/
theorem C6_UpgradeToLatest_no_partial_result {Cfg : Type} (env : Collaborators Cfg)
    (vc : Cfg) :
    (∀ (fuel : Nat) (calls : List (Call Cfg)) (res : Option Cfg × Option GoError),
      UpgradeToLatest env fuel vc = some (calls, res) →
      (∃ r, res = (some r, none) ∧ env.GetVersion r = env.latest.Version) ∨
      (∃ err, res = (none, some err))) ∧
    (∀ (n : Nat) (c : Cfg) (err : GoError), FirstFailureAt env vc n c err →
      ∀ fuel, n < fuel →
      ∃ calls e, UpgradeToLatest env fuel vc = some (calls, (none, some e)) ∧
        calls.length = n + 1 ∧ calls[n]? = some (.Upgrade c) ∧
        ∀ k ≤ n, ∀ c1, upgradeChain env k vc = .ok c1 → calls[k]? = some (.Upgrade c1)) ∧
    (∀ fuel, UpgradeToLatest env fuel vc = none →
      ∀ k < fuel, ∃ c, upgradeChain env k vc = .ok c ∧
        env.GetVersion c ≠ env.latest.Version) := by
  refine ⟨?_, ?_, fun fuel => UpgradeToLatest_none env fuel vc⟩
  · intro fuel calls res h
    rcases UpgradeToLatest_inv env fuel vc calls res h with
      ⟨n, r, _, hfl, hres, _⟩ | ⟨n, c, err, _, _, hres, _⟩
    · exact Or.inl ⟨r, hres, hfl.2.1⟩
    · exact Or.inr ⟨_, hres⟩
  · intro n c err hff fuel hf
    refine ⟨_, _, UpgradeToLatest_of_firstFailure env n vc c err hff fuel hf,
      upgradeCalls_failure_length env n vc c err hff.1 hff.2.1,
      upgradeCalls_get env (n + 1) n vc c (Nat.lt_succ_self n) hff.1, ?_⟩
    intro k hk c1 hc1
    exact upgradeCalls_get env (n + 1) k vc c1 (Nat.lt_succ_of_le hk) hc1

/-- C8, as the code has it. When the `Upgrade` of element `n` of the sequence
from `vc` is the first to fail, with `err`, `UpgradeToLatest` returns `nil`
and `errors.Wrapf(err, "transforming skaffold config")`: the cause wrapped
with a fixed context message. Its text is that message, a colon and the text of
the cause, and its innermost cause is that of `err`. The error is made from
`err` alone: the version of the config whose `Upgrade` failed is no part of
it. -/
theorem C8_UpgradeToLatest_wraps_cause {Cfg : Type} (env : Collaborators Cfg) (vc : Cfg)
    (n : Nat) (c : Cfg) (err : GoError) (hfail : FirstFailureAt env vc n c err)
    (fuel : Nat) (hfuel : n < fuel) :
    (∃ calls, UpgradeToLatest env fuel vc =
      some (calls, (none, some (.wrap err "transforming skaffold config")))) ∧
    (GoError.wrap err "transforming skaffold config").Error =
      "transforming skaffold config: " ++ err.Error ∧
    (GoError.wrap err "transforming skaffold config").Cause = err.Cause :=
  ⟨⟨_, UpgradeToLatest_of_firstFailure env n vc c err hfail fuel hfuel⟩, rfl, rfl⟩

theorem firstLatest_along_tags {Cfg : Type} (env : Collaborators Cfg) (ts : List String)
    (hlast : ∀ i, i + 1 = ts.length → ts[i]? = some env.latest.Version)
    (hchain : ∀ (i : Nat) (t t1 : String), ts[i]? = some t → ts[i + 1]? = some t1 →
      ∀ c, env.GetVersion c = t → t ≠ env.latest.Version →
      ∃ c1, env.Upgrade c = .ok c1 ∧ env.GetVersion c1 = t1) :
    ∀ (d i : Nat) (vc : Cfg), i + d + 1 = ts.length → ts[i]? = some (env.GetVersion vc) →
      ∃ n r, n ≤ d ∧ FirstLatestAt env vc n r
  | 0, i, vc, hi, hv => by
    have h := hlast i (by omega)
    rw [hv] at h
    have hvc : env.GetVersion vc = env.latest.Version := by simpa using h
    exact ⟨0, vc, Nat.le_refl 0, rfl, hvc, fun k hk => absurd hk (Nat.not_lt_zero k)⟩
  | d + 1, i, vc, hi, hv => by
    by_cases hvc : env.GetVersion vc = env.latest.Version
    · exact ⟨0, vc, Nat.zero_le _, rfl, hvc, fun k hk => absurd hk (Nat.not_lt_zero k)⟩
    · have hlt : i + 1 < ts.length := by omega
      have hnext : ts[i + 1]? = some ts[i + 1] := List.getElem?_eq_getElem hlt
      obtain ⟨c1, hU, hc1⟩ := hchain i _ _ hv hnext vc rfl hvc
      obtain ⟨n, r, hn, hfl⟩ :=
        firstLatest_along_tags env ts hlast hchain d (i + 1) c1 (by omega)
          (by rw [hnext, hc1])
      exact ⟨n + 1, r, Nat.succ_le_succ hn, FirstLatestAt_cons env vc c1 r n hvc hU hfl⟩

/-- C4. Let `vc` be a config whose version is one of the five registered tags,
and let `Upgrade` of every config at a registered tag other than the latest
succeed and give a config at the next tag of the registry. Then the sequence
from `vc` reaches the latest version after `n` calls of `Upgrade`, with `n` at
most the number of registered versions less one, which is 4; `UpgradeToLatest`
ends within `n + 1` evaluations of its loop condition (so within 5) and
returns that config, whose `GetVersion()` is the latest tag, having called
`Upgrade` exactly `n` times. -/
theorem C4_UpgradeToLatest_terminates {Cfg : Type} (env : Collaborators Cfg) (vc : Cfg)
    (hreg : env.GetVersion vc ∈ (schemaVersions env).map (fun e => e.apiVersion))
    (hchain : ∀ (i : Nat) (t t1 : String),
      ((schemaVersions env).map (fun e => e.apiVersion))[i]? = some t →
      ((schemaVersions env).map (fun e => e.apiVersion))[i + 1]? = some t1 →
      ∀ c, env.GetVersion c = t → t ≠ env.latest.Version →
      ∃ c1, env.Upgrade c = .ok c1 ∧ env.GetVersion c1 = t1) :
    (schemaVersions env).length - 1 = 4 ∧
    ∃ n r, n ≤ (schemaVersions env).length - 1 ∧
      env.GetVersion r = env.latest.Version ∧
      ∀ fuel, n < fuel →
        ∃ calls, UpgradeToLatest env fuel vc = some (calls, (some r, none)) ∧
          calls.length = n := by
  refine ⟨rfl, ?_⟩
  obtain ⟨i, hi⟩ := List.getElem?_of_mem hreg
  have hilt : i < 5 := by
    by_contra hge
    have : ((schemaVersions env).map (fun e => e.apiVersion))[i]? = none :=
      List.getElem?_eq_none (by simp [schemaVersions]; omega)
    rw [this] at hi
    simp at hi
  have hlast : ∀ j, j + 1 = ((schemaVersions env).map (fun e => e.apiVersion)).length →
      ((schemaVersions env).map (fun e => e.apiVersion))[j]? = some env.latest.Version := by
    intro j hj
    have hj4 : j = 4 := by simp [schemaVersions] at hj; omega
    subst hj4
    rfl
  obtain ⟨n, r, hn, hfl⟩ :=
    firstLatest_along_tags env _ hlast hchain (4 - i) i vc
      (by simp [schemaVersions]; omega) hi
  refine ⟨n, r, ?_, hfl.2.1, ?_⟩
  · have : (schemaVersions env).length - 1 = 4 := rfl
    omega
  · intro fuel hf
    exact ⟨_, UpgradeToLatest_of_firstLatest env n vc r hfl fuel hf,
      upgradeCalls_length env n vc r hfl.1⟩

/-! ## `CheckVersionIsLatest` -/

/-- C5. When the comparator parses the tag, to `parsedVersion`, and the latest
tag, to `l`: `CheckVersionIsLatest` returns no error exactly when
`parsedVersion = l`, the out-of-date error exactly when `parsedVersion < l`,
and the too-new error exactly when `parsedVersion > l`; and
`CheckVersionIsLatest` of the latest tag returns no error. -/
theorem C5_CheckVersionIsLatest_trichotomy {Cfg V : Type} [LinearOrder V]
    (env : Collaborators Cfg) (apiversion : Comparator V) (apiVersion : String)
    (parsedVersion l : V)
    (hparse : apiversion.Parse apiVersion = .ok parsedVersion)
    (hlatest : apiversion.Parse env.latest.Version = .ok l) :
    (CheckVersionIsLatest env apiversion apiVersion = .returned none ↔ parsedVersion = l) ∧
    (CheckVersionIsLatest env apiversion apiVersion =
        .returned (some (.new "config version out of date: run `skaffold fix`")) ↔
      parsedVersion < l) ∧
    (CheckVersionIsLatest env apiversion apiVersion =
        .returned (some (.new
          "config version is too new for this version of skaffold: upgrade skaffold")) ↔
      parsedVersion > l) ∧
    CheckVersionIsLatest env apiversion env.latest.Version = .returned none := by
  have hl : CheckVersionIsLatest env apiversion env.latest.Version = .returned none := by
    simp [CheckVersionIsLatest, MustParse, hlatest]
  refine ⟨?_, ?_, ?_, hl⟩
  · rcases lt_trichotomy parsedVersion l with h | h | h
    · simp [CheckVersionIsLatest, MustParse, hparse, hlatest, h, ne_of_lt h]
    · simp [CheckVersionIsLatest, MustParse, hparse, hlatest, h]
    · simp [CheckVersionIsLatest, MustParse, hparse, hlatest, h, not_lt_of_gt h,
        ne_of_gt h]
  · rcases lt_trichotomy parsedVersion l with h | h | h
    · simp [CheckVersionIsLatest, MustParse, hparse, hlatest, h]
    · simp [CheckVersionIsLatest, MustParse, hparse, hlatest, h]
    · simp [CheckVersionIsLatest, MustParse, hparse, hlatest, h, not_lt_of_gt h]
  · rcases lt_trichotomy parsedVersion l with h | h | h
    · simp [CheckVersionIsLatest, MustParse, hparse, hlatest, h, not_lt_of_gt h]
    · simp [CheckVersionIsLatest, MustParse, hparse, hlatest, h]
    · simp [CheckVersionIsLatest, MustParse, hparse, hlatest, h, not_lt_of_gt h]

/-! ## The theorems at the concrete collaborators -/

theorem demo_chain : ∀ (i : Nat) (t t1 : String),
    ((schemaVersions demo).map (fun e => e.apiVersion))[i]? = some t →
    ((schemaVersions demo).map (fun e => e.apiVersion))[i + 1]? = some t1 →
    ∀ c, demo.GetVersion c = t → t ≠ demo.latest.Version →
    ∃ c1, demo.Upgrade c = .ok c1 ∧ demo.GetVersion c1 = t1 := by
  intro i t t1 hi hi1 c hc _
  have hc1 : c.apiVersion = t := hc
  show ∃ c1, demoUpgrade c = .ok c1 ∧ c1.apiVersion = t1
  match i, hi, hi1 with
  | 0, hi, hi1 =>
    simp [schemaVersions, demo] at hi hi1
    subst hi hi1
    exact ⟨{ c with apiVersion := "skaffold/v1alpha2" }, by simp [demoUpgrade, hc1], rfl⟩
  | 1, hi, hi1 =>
    simp [schemaVersions, demo] at hi hi1
    subst hi hi1
    exact ⟨{ c with apiVersion := "skaffold/v1alpha3" }, by simp [demoUpgrade, hc1], rfl⟩
  | 2, hi, hi1 =>
    simp [schemaVersions, demo] at hi hi1
    subst hi hi1
    exact ⟨{ c with apiVersion := "skaffold/v1alpha4" }, by simp [demoUpgrade, hc1], rfl⟩
  | 3, hi, hi1 =>
    simp [schemaVersions, demo] at hi hi1
    subst hi hi1
    exact ⟨{ c with apiVersion := "skaffold/v1alpha5" }, by simp [demoUpgrade, hc1], rfl⟩
  | n + 4, _, hi1 => simp [schemaVersions, demo] at hi1

theorem C1_ParseConfig_unknown_version_witness :
    demo.ReadConfiguration "v9.yaml" = .ok (bytesOf "apiVersion: v9\nname: x") ∧
    demo.Unmarshal (bytesOf "apiVersion: v9\nname: x") { Version := "" } =
      ({ Version := "v9" }, none) ∧
    (∀ e ∈ schemaVersions demo, e.apiVersion ≠ "v9") ∧
    (ParseConfig demo "v9.yaml" true).2 =
      .returned (none, some (.new "unknown api version: \x27v9\x27")) ∧
    (ParseConfig demo "v9.yaml" true).1 =
      [.ReadConfiguration "v9.yaml", .Unmarshal (bytesOf "apiVersion: v9\nname: x"),
        .Find "v9"] :=
  ⟨rfl, rfl, by decide,
    (C1_ParseConfig_unknown_version demo "v9.yaml" true
      (bytesOf "apiVersion: v9\nname: x") { Version := "v9" } rfl rfl (by decide)).1,
    (C1_ParseConfig_unknown_version demo "v9.yaml" true
      (bytesOf "apiVersion: v9\nname: x") { Version := "v9" } rfl rfl (by decide)).2.1⟩

theorem C2_ParseConfig_tag_preserving_witness :
    ParseConfig (specCollaborators demoModules demoRead demoUnmarshal demoValidate)
        "v1alpha1.yaml" true =
      ([.ReadConfiguration "v1alpha1.yaml",
        .Unmarshal (bytesOf "apiVersion: skaffold/v1alpha1\nname: x"),
        .Find "skaffold/v1alpha1", .factory ⟨"skaffold/v1alpha1", ""⟩,
        .Parse ⟨"skaffold/v1alpha1", ""⟩ (bytesOf "apiVersion: skaffold/v1alpha1\nname: x")
          true,
        .ProcessStruct ⟨"skaffold/v1alpha1", "x"⟩],
        .returned (some ⟨"skaffold/v1alpha1", "x"⟩, none)) ∧
    ∃ (buf : Bytes) (apiVersion : APIVersion) (cfg : SpecConfig String),
      demoRead "v1alpha1.yaml" = .ok buf ∧
      demoUnmarshal buf { Version := "" } = (apiVersion, none) ∧
      some (⟨"skaffold/v1alpha1", "x"⟩ : SpecConfig String) = some cfg ∧
      (specCollaborators demoModules demoRead demoUnmarshal demoValidate).GetVersion cfg =
        apiVersion.Version ∧
      ∀ c ∈ ([.ReadConfiguration "v1alpha1.yaml",
        .Unmarshal (bytesOf "apiVersion: skaffold/v1alpha1\nname: x"),
        .Find "skaffold/v1alpha1", .factory ⟨"skaffold/v1alpha1", ""⟩,
        .Parse ⟨"skaffold/v1alpha1", ""⟩ (bytesOf "apiVersion: skaffold/v1alpha1\nname: x")
          true,
        .ProcessStruct ⟨"skaffold/v1alpha1", "x"⟩] : List (Call (SpecConfig String))),
        ∀ vc, c ≠ .Upgrade vc :=
  ⟨rfl, C2_ParseConfig_tag_preserving demoModules demoRead demoUnmarshal demoValidate
    "v1alpha1.yaml" true _ _ rfl⟩

theorem demoBroken_first_failure :
    FirstFailureAt demoBroken ⟨"skaffold/v1alpha1", "x"⟩ 1 ⟨"skaffold/v1alpha2", "x"⟩
      (.new "cannot convert build section") := by
  refine ⟨rfl, rfl, ?_⟩
  intro k hk c1 hc
  match k, hk, hc with
  | 0, _, hc =>
    have h : (⟨"skaffold/v1alpha1", "x"⟩ : DemoConfig) = c1 := by
      simpa [upgradeChain] using hc
    subst h
    decide
  | 1, _, hc =>
    have h0 : upgradeChain demoBroken 1 ⟨"skaffold/v1alpha1", "x"⟩ =
        .ok ⟨"skaffold/v1alpha2", "x"⟩ := rfl
    rw [h0] at hc
    have h : (⟨"skaffold/v1alpha2", "x"⟩ : DemoConfig) = c1 := by simpa using hc
    subst h
    decide

theorem demo_first_latest :
    FirstLatestAt demo ⟨"skaffold/v1alpha3", "x"⟩ 2 ⟨"skaffold/v1alpha5", "x"⟩ := by
  refine ⟨rfl, rfl, ?_⟩
  intro k hk c hc
  match k, hk, hc with
  | 0, _, hc =>
    have h : (⟨"skaffold/v1alpha3", "x"⟩ : DemoConfig) = c := by
      simpa [upgradeChain] using hc
    subst h
    decide
  | 1, _, hc =>
    have h0 : upgradeChain demo 1 ⟨"skaffold/v1alpha3", "x"⟩ =
        .ok ⟨"skaffold/v1alpha4", "x"⟩ := rfl
    rw [h0] at hc
    have h : (⟨"skaffold/v1alpha4", "x"⟩ : DemoConfig) = c := by simpa using hc
    subst h
    decide

theorem C3_UpgradeToLatest_first_latest_witness :
    (∃ n r, some (⟨"skaffold/v1alpha5", "x"⟩ : DemoConfig) = some r ∧
      upgradeChain demo n ⟨"skaffold/v1alpha3", "x"⟩ = .ok r ∧
      demo.GetVersion r = demo.latest.Version ∧
      (∀ k < n, ∀ c, upgradeChain demo k ⟨"skaffold/v1alpha3", "x"⟩ = .ok c →
        demo.GetVersion c ≠ demo.latest.Version) ∧
      ([.Upgrade ⟨"skaffold/v1alpha3", "x"⟩, .Upgrade ⟨"skaffold/v1alpha4", "x"⟩] :
        List (Call DemoConfig)).length = n ∧
      ∀ k < n, ∀ c, upgradeChain demo k ⟨"skaffold/v1alpha3", "x"⟩ = .ok c →
        ([.Upgrade ⟨"skaffold/v1alpha3", "x"⟩, .Upgrade ⟨"skaffold/v1alpha4", "x"⟩] :
          List (Call DemoConfig))[k]? = some (.Upgrade c)) ∧
    (∃ calls, UpgradeToLatest demo 3 ⟨"skaffold/v1alpha3", "x"⟩ =
        some (calls, (some ⟨"skaffold/v1alpha5", "x"⟩, none)) ∧ calls.length = 2) ∧
    UpgradeToLatest demo 1 ⟨"skaffold/v1alpha5", "x"⟩ =
      some ([], (some ⟨"skaffold/v1alpha5", "x"⟩, none)) :=
  ⟨(C3_UpgradeToLatest_first_latest demo ⟨"skaffold/v1alpha3", "x"⟩).1 3 _ _ rfl,
    (C3_UpgradeToLatest_first_latest demo ⟨"skaffold/v1alpha3", "x"⟩).2.1 2 _
      demo_first_latest 3 (by decide),
    (C3_UpgradeToLatest_first_latest demo ⟨"skaffold/v1alpha5", "x"⟩).2.2 rfl 0⟩

theorem C4_UpgradeToLatest_terminates_witness :
    (schemaVersions demo).length - 1 = 4 ∧
    ∃ n r, n ≤ (schemaVersions demo).length - 1 ∧
      demo.GetVersion r = demo.latest.Version ∧
      ∀ fuel, n < fuel →
        ∃ calls, UpgradeToLatest demo fuel ⟨"skaffold/v1alpha1", "x"⟩ =
            some (calls, (some r, none)) ∧
          calls.length = n :=
  C4_UpgradeToLatest_terminates demo ⟨"skaffold/v1alpha1", "x"⟩ (by decide) demo_chain

theorem C5_CheckVersionIsLatest_trichotomy_witness :
    CheckVersionIsLatest demo demoApiversion "skaffold/v1alpha3" =
      .returned (some (.new "config version out of date: run `skaffold fix`")) ∧
    CheckVersionIsLatest demo demoApiversion "skaffold/v2alpha1" =
      .returned (some (.new
        "config version is too new for this version of skaffold: upgrade skaffold")) ∧
    CheckVersionIsLatest demo demoApiversion "skaffold/v1alpha5" = .returned none :=
  ⟨(C5_CheckVersionIsLatest_trichotomy demo demoApiversion "skaffold/v1alpha3" 3 5
      rfl rfl).2.1.2 (by decide),
    (C5_CheckVersionIsLatest_trichotomy demo demoApiversion "skaffold/v2alpha1" 6 5
      rfl rfl).2.2.1.2 (by decide),
    (C5_CheckVersionIsLatest_trichotomy demo demoApiversion "skaffold/v1alpha5" 5 5
      rfl rfl).1.2 rfl⟩

theorem C6_UpgradeToLatest_no_partial_result_witness :
    ((∃ r, ((none, some (.wrap (.new "cannot convert build section")
          "transforming skaffold config")) : Option DemoConfig × Option GoError) =
        (some r, none) ∧ demoBroken.GetVersion r = demoBroken.latest.Version) ∨
      (∃ err, ((none, some (.wrap (.new "cannot convert build section")
          "transforming skaffold config")) : Option DemoConfig × Option GoError) =
        (none, some err))) ∧
    (∃ calls e, UpgradeToLatest demoBroken 2 ⟨"skaffold/v1alpha1", "x"⟩ =
        some (calls, (none, some e)) ∧
      calls.length = 1 + 1 ∧ calls[1]? = some (.Upgrade ⟨"skaffold/v1alpha2", "x"⟩) ∧
      ∀ k ≤ 1, ∀ c1, upgradeChain demoBroken k ⟨"skaffold/v1alpha1", "x"⟩ = .ok c1 →
        calls[k]? = some (.Upgrade c1)) :=
  ⟨(C6_UpgradeToLatest_no_partial_result demoBroken ⟨"skaffold/v1alpha1", "x"⟩).1 5 _ _ rfl,
    (C6_UpgradeToLatest_no_partial_result demoBroken ⟨"skaffold/v1alpha1", "x"⟩).2.1 1 _ _
      demoBroken_first_failure 2 (by decide)⟩

/-- C7 fails as stated: the document `kind: Config`, `name: x` is well formed
and has no `apiVersion` key; the probe succeeds with the empty tag, the
registry lookup is made, and the error returned is `unknown api version: ''`,
not the probe-stage error `parsing api version`. -/
theorem C7_counterexample_absent_key :
    demo.ReadConfiguration "nokey.yaml" = .ok (bytesOf "kind: Config\nname: x") ∧
    demo.Unmarshal (bytesOf "kind: Config\nname: x") { Version := "" } =
      ({ Version := "" }, none) ∧
    ParseConfig demo "nokey.yaml" true =
      ([.ReadConfiguration "nokey.yaml", .Unmarshal (bytesOf "kind: Config\nname: x"),
        .Find ""],
        .returned (none, some (.new "unknown api version: \x27\x27"))) ∧
    (∀ err, (ParseConfig demo "nokey.yaml" true).2 ≠
      .returned (none, some (.wrap err "parsing api version"))) ∧
    Call.Find "" ∈ (ParseConfig demo "nokey.yaml" true).1 := by
  have h : ParseConfig demo "nokey.yaml" true =
      ([.ReadConfiguration "nokey.yaml", .Unmarshal (bytesOf "kind: Config\nname: x"),
        .Find ""],
        .returned (none, some (.new "unknown api version: \x27\x27"))) := rfl
  refine ⟨rfl, rfl, h, ?_, ?_⟩
  · intro err he
    rw [h] at he
    simp at he
  · rw [h]
    simp

theorem C7_ParseConfig_empty_tag_witness :
    demo.ReadConfiguration "empty.yaml" = .ok (bytesOf "apiVersion: \nname: x") ∧
    ParseConfig demo "empty.yaml" false =
      ([.ReadConfiguration "empty.yaml", .Unmarshal (bytesOf "apiVersion: \nname: x"),
        .Find ""],
        .returned (none, some (.new "unknown api version: \x27\x27"))) ∧
    demo.ReadConfiguration "seq.yaml" = .ok (bytesOf "- a\n- b") ∧
    (ParseConfig demo "seq.yaml" false).2 =
      .returned (none, some (.wrap
        (.new "yaml: unmarshal errors: line 1: cannot unmarshal !!seq into struct")
        "parsing api version")) ∧
    (ParseConfig demo "seq.yaml" false).1 =
      [.ReadConfiguration "seq.yaml", .Unmarshal (bytesOf "- a\n- b")] ∧
    ∃ out, demo.Unmarshal (bytesOf "- a\n- b") { Version := "" } =
      (out, some (.new "yaml: unmarshal errors: line 1: cannot unmarshal !!seq into struct")) :=
  ⟨rfl, (C7_ParseConfig_empty_tag demo "empty.yaml" false
      (bytesOf "apiVersion: \nname: x") rfl).2.2 rfl (by decide),
    rfl,
    ((C7_ParseConfig_empty_tag demo "seq.yaml" false (bytesOf "- a\n- b") rfl).1 _).2
      ⟨{ Version := "" }, rfl⟩,
    (C7_ParseConfig_empty_tag demo "seq.yaml" false (bytesOf "- a\n- b") rfl).2.1
      { Version := "" } _ rfl,
    ((C7_ParseConfig_empty_tag demo "seq.yaml" false (bytesOf "- a\n- b") rfl).1 _).1 rfl⟩

/-- C8 fails as stated: a config at `v1alpha2` and a config at `v1alpha3`, whose
`Upgrade` fail with the same cause, give the very same error; its text is the
fixed message and the text of the cause, with no version in it. -/
theorem C8_counterexample_error_without_version :
    UpgradeToLatest demoBroken 5 ⟨"skaffold/v1alpha2", "x"⟩ =
      some ([.Upgrade ⟨"skaffold/v1alpha2", "x"⟩],
        (none, some (.wrap (.new "cannot convert build section")
          "transforming skaffold config"))) ∧
    UpgradeToLatest demoBroken 5 ⟨"skaffold/v1alpha3", "x"⟩ =
      some ([.Upgrade ⟨"skaffold/v1alpha3", "x"⟩],
        (none, some (.wrap (.new "cannot convert build section")
          "transforming skaffold config"))) ∧
    demoBroken.GetVersion ⟨"skaffold/v1alpha2", "x"⟩ ≠
      demoBroken.GetVersion ⟨"skaffold/v1alpha3", "x"⟩ ∧
    (GoError.wrap (.new "cannot convert build section")
      "transforming skaffold config").Error =
      "transforming skaffold config: cannot convert build section" :=
  ⟨rfl, rfl, by decide, by decide⟩

theorem C8_UpgradeToLatest_wraps_cause_witness :
    FirstFailureAt demoBroken ⟨"skaffold/v1alpha1", "x"⟩ 1 ⟨"skaffold/v1alpha2", "x"⟩
      (.new "cannot convert build section") ∧
    ∃ calls, UpgradeToLatest demoBroken 2 ⟨"skaffold/v1alpha1", "x"⟩ =
      some (calls, (none, some (.wrap (.new "cannot convert build section")
        "transforming skaffold config"))) :=
  ⟨demoBroken_first_failure,
    (C8_UpgradeToLatest_wraps_cause demoBroken ⟨"skaffold/v1alpha1", "x"⟩ 1
      ⟨"skaffold/v1alpha2", "x"⟩ (.new "cannot convert build section")
      demoBroken_first_failure 2 (by decide)).1⟩

theorem C9_Find_first_match_witness :
    versions.Find (schemaVersions demo) "skaffold/v1alpha2" =
      (some demo.v1alpha2.NewSkaffoldPipeline, true) ∧
    versions.Find (schemaVersions demo) "v9" = (none, false) ∧
    versions.Find (schemaVersions demo).reverse "skaffold/v1alpha2" =
      versions.Find (schemaVersions demo) "skaffold/v1alpha2" :=
  ⟨(C9_Find_first_match (schemaVersions demo) "skaffold/v1alpha2").2.1
      [⟨demo.v1alpha1.Version, demo.v1alpha1.NewSkaffoldPipeline⟩]
      [⟨demo.v1alpha3.Version, demo.v1alpha3.NewSkaffoldPipeline⟩,
        ⟨demo.v1alpha4.Version, demo.v1alpha4.NewSkaffoldPipeline⟩,
        ⟨demo.latest.Version, demo.latest.NewSkaffoldPipeline⟩]
      ⟨demo.v1alpha2.Version, demo.v1alpha2.NewSkaffoldPipeline⟩ rfl (by decide) rfl,
    (C9_Find_first_match (schemaVersions demo) "v9").2.2.1 (by decide),
    (C9_Find_first_match (schemaVersions demo) "skaffold/v1alpha2").2.2.2
      (schemaVersions demo).reverse (by decide) (List.reverse_perm _).symm⟩

theorem C10_ParseConfig_stages_witness :
    ParseConfig demo "missing.yaml" true =
      ([.ReadConfiguration "missing.yaml"],
        .returned (none, some (.wrap
          (.new "open missing.yaml: no such file or directory") "read skaffold config"))) ∧
    ParseConfig demo "v1alpha1.yaml" false =
      ([.ReadConfiguration "v1alpha1.yaml",
        .Unmarshal (bytesOf "apiVersion: skaffold/v1alpha1\nname: x"),
        .Find "skaffold/v1alpha1", .factory ⟨"skaffold/v1alpha1", ""⟩,
        .Parse ⟨"skaffold/v1alpha1", ""⟩ (bytesOf "apiVersion: skaffold/v1alpha1\nname: x")
          false,
        .ProcessStruct ⟨"skaffold/v1alpha1", "x"⟩],
        .returned (some ⟨"skaffold/v1alpha1", "x"⟩, none)) :=
  ⟨(C10_ParseConfig_stages demo "missing.yaml" true).1 _ rfl,
    ((((C10_ParseConfig_stages demo "v1alpha1.yaml" false).2.1
      (bytesOf "apiVersion: skaffold/v1alpha1\nname: x") rfl).2
      { Version := "skaffold/v1alpha1" } rfl).2
      demo.v1alpha1.NewSkaffoldPipeline rfl).2 ⟨"skaffold/v1alpha1", "x"⟩ rfl |>.2 rfl⟩

end Schema
